import Mathlib

/-!
Shallow embedding of the live scoring engine and stats aggregator of the
bblApp repository (TypeScript).  Sources embedded:

* `src/unnamed/part_004` — the base-state algebra (`advanceRunnersForHit`,
  `resolveSteal`, `moveRunner`, lineup helpers, `toggleHalf`);
* `src/src/store/statsStore.ts` (second concatenated file, the game store) —
  the live reducers `logHit`, `logStrike`, `logError`, `logCaughtOut`,
  `logSteal`, `rotateSides`, `initialLiveState`, `appendEvent`;
* `src/unnamed/part_000` — the stats aggregator (`filterEventsByScope`,
  `buildIndividualLeaderboard`);
* the undo component, whose implementation is absent from the sources
  (only `undoLastAction` / `undoStack` call sites exist in the UI file),
  is modelled from the spec, as marked on each definition.

Modelling conventions: JavaScript `Record<string, T>` objects are embedded
as association lists with object-spread semantics (`recUpdate` replaces the
first matching key in place, otherwise appends, matching the unique-key
object semantics of `{...m, [k]: v}`); JS numbers that are only ever
non-negative integers in the source become `Nat`; derived rates (TS float
division) become exact rationals `ℚ`.  The nondeterministic `id` (nanoid)
and `timestamp` (`Date.now()`) fields of `GameEvent`, and purely
presentational fields (`teamLabels`, display names inside lineup slots,
`notes`), are omitted: no embedded computation reads them.
-/

namespace BblApp

/-- JS object lookup `m[k]` on a record embedded as an association list
(string keys for `Record<string, T>`, `Nat` keys for `Record<number, T>`). -/
def recGet? {κ A : Type} [DecidableEq κ] (m : List (κ × A)) (k : κ) :
    Option A :=
  match m with
  | [] => none
  | (k', v) :: rest => if k' = k then some v else recGet? rest k

/-- Lookup with a default: for sites where the source assumes the key is
present, and for `m[k] ?? 0`. -/
def recGetD {κ A : Type} [DecidableEq κ] (m : List (κ × A)) (k : κ)
    (d : A) : A :=
  (recGet? m k).getD d

/-- JS object spread `{...m, [k]: v}`: replaces the value at `k` in place
if present, otherwise appends the new key. -/
def recUpdate {κ A : Type} [DecidableEq κ] (m : List (κ × A)) (k : κ)
    (v : A) : List (κ × A) :=
  match m with
  | [] => [(k, v)]
  | (k', v') :: rest =>
      if k' = k then (k', v) :: rest else (k', v') :: recUpdate rest k v

/-! ## Base-state algebra (src/unnamed/part_004) -/

/-- `GameHalf` from `src/unnamed/part_001`. -/
inductive GameHalf
  | top
  | bottom
deriving DecidableEq, Repr

/-- `EventType` from `src/unnamed/part_001`. -/
inductive EventType
  | single
  | double
  | triple
  | homerun
  | strike
  | error
  | strikeout
  | caught_out
  | steal_success
  | steal_fail
deriving DecidableEq, Repr

/-- The four hit kinds (`keyof typeof hitValueMap`). -/
inductive HitType
  | single
  | double
  | triple
  | homerun
deriving DecidableEq, Repr

/-- `hitValueMap` from `src/unnamed/part_004`. -/
def hitValueMap : HitType → Nat
  | .single => 1
  | .double => 2
  | .triple => 3
  | .homerun => 4

/-- The `EventType` recorded for a hit of the given kind. -/
def hitEventType : HitType → EventType
  | .single => .single
  | .double => .double
  | .triple => .triple
  | .homerun => .homerun

/-- A base key (`keyof BaseState`). -/
inductive BaseKey
  | first
  | second
  | third
deriving DecidableEq, Repr

/-- `BaseState` from `src/unnamed/part_001`: three optional runner ids. -/
structure BaseState where
  first : Option String
  second : Option String
  third : Option String
deriving DecidableEq, Repr

/-- `EMPTY_BASES`. -/
def EMPTY_BASES : BaseState := { first := none, second := none, third := none }

/-- `baseNames` (iteration order `first, second, third`). -/
def baseNames : List BaseKey := [.first, .second, .third]

/-- `advancePriority` (`third, second, first`). -/
def advancePriority : List BaseKey := [.third, .second, .first]

/-- `baseIndex`. -/
def baseIndex : BaseKey → Nat
  | .first => 1
  | .second => 2
  | .third => 3

/-- `indexToBase` (a record with keys 1, 2, 3; other indices are absent). -/
def indexToBase (n : Nat) : Option BaseKey :=
  match n with
  | 1 => some .first
  | 2 => some .second
  | 3 => some .third
  | _ => none

/-- Field read `bases[baseName]`. -/
def getBase (b : BaseState) : BaseKey → Option String
  | .first => b.first
  | .second => b.second
  | .third => b.third

/-- Field write `bases[baseName] = v`. -/
def setBase (b : BaseState) : BaseKey → Option String → BaseState
  | .first, v => { b with first := v }
  | .second, v => { b with second := v }
  | .third, v => { b with third := v }

/-- Result of `moveRunner`. -/
structure MoveResult where
  scored : Bool
  targetBase : Option BaseKey
deriving DecidableEq, Repr

/-- `moveRunner` from `src/unnamed/part_004` (the unused `bases` argument of
the source is dropped). -/
def moveRunner (from_ : BaseKey) (steps : Nat) : MoveResult :=
  let startIndex := baseIndex from_
  let destinationIndex := startIndex + steps
  if destinationIndex ≥ 4 then
    { scored := true, targetBase := none }
  else
    { scored := false, targetBase := indexToBase destinationIndex }

/-- Result record of `advanceRunnersForHit`. -/
structure HitResult where
  before : BaseState
  after : BaseState
  runsScored : Nat
  rbi : Nat
deriving DecidableEq, Repr

/-- One step of the `forEach` loop in `advanceRunnersForHit`: move the
occupant of `baseName` (if any) by `basesTaken` slots into the accumulator
`next`, counting a run if the destination passes third. -/
def advanceStep (before : BaseState) (basesTaken : Nat)
    (acc : BaseState × Nat) (baseName : BaseKey) : BaseState × Nat :=
  match getBase before baseName with
  | none => acc
  | some occupant =>
      let moveResult := moveRunner baseName basesTaken
      if moveResult.scored then
        (acc.1, acc.2 + 1)
      else
        match moveResult.targetBase with
        | some tb => (setBase acc.1 tb occupant, acc.2)
        | none => acc

/-- `advanceRunnersForHit` from `src/unnamed/part_004`: existing runners are
processed in order third, second, first (`[...baseNames].reverse()`), each
moving `basesTaken` slots from the pre-state into a fresh empty base state;
then the batter scores (on 4) or is placed on base `basesTaken`. -/
def advanceRunnersForHit (current : BaseState) (basesTaken : Nat)
    (batterId : String) : HitResult :=
  let before := current
  let moved := (baseNames.reverse).foldl
    (advanceStep before basesTaken) (EMPTY_BASES, 0)
  let placed :=
    if basesTaken ≥ 4 then
      (moved.1, moved.2 + 1)
    else
      match indexToBase basesTaken with
      | some landingBase => (setBase moved.1 landingBase batterId, moved.2)
      | none => moved
  { before := before
    after := placed.1
    runsScored := placed.2
    rbi := placed.2 }

/-- Result record of `resolveSteal`. -/
structure StealResult where
  before : BaseState
  after : BaseState
  success : Bool
  runsScored : Nat
deriving DecidableEq, Repr

/-- `locateRunner` from `src/unnamed/part_004`. -/
def locateRunner (current : BaseState) (runnerId : String) : Option BaseKey :=
  baseNames.find? (fun base => getBase current base = some runnerId)

/-- `resolveSteal` from `src/unnamed/part_004`: on failure the runner is
removed from their base (no-op if absent); on success the lead occupied base
(third, then second, then first) advances one slot, scoring from third. -/
def resolveSteal (current : BaseState) (runnerId : String)
    (success : Bool) : StealResult :=
  let before := current
  if success then
    match advancePriority.find? (fun base => (getBase current base).isSome) with
    | none => { before := before, after := current, success := success, runsScored := 0 }
    | some moverBase =>
        match getBase current moverBase with
        | none => { before := before, after := current, success := success, runsScored := 0 }
        | some occupant =>
            let after := setBase current moverBase none
            let moveResult := moveRunner moverBase 1
            if moveResult.scored then
              { before := before, after := after, success := success, runsScored := 1 }
            else
              match moveResult.targetBase with
              | some tb =>
                  { before := before, after := setBase after tb occupant,
                    success := success, runsScored := 0 }
              | none =>
                  { before := before, after := after, success := success, runsScored := 0 }
  else
    let after :=
      match locateRunner current runnerId with
      | some origin => setBase current origin none
      | none => current
    { before := before, after := after, success := success, runsScored := 0 }

/-- `LineupSlot` (the presentational `identity` field is omitted). -/
structure LineupSlot where
  playerId : String
  battingOrder : Nat
deriving DecidableEq, Repr

/-- `TeamLineupState`. -/
structure TeamLineupState where
  teamId : String
  lineup : List LineupSlot
  currentIndex : Nat
deriving DecidableEq, Repr

/-- Fallback slot for the out-of-range list access the source would crash
on; never reached for a nonempty lineup. -/
def emptySlot : LineupSlot := { playerId := "", battingOrder := 0 }

/-- `getCurrentBatter` from `src/unnamed/part_004`. -/
def getCurrentBatter (lu : TeamLineupState) : LineupSlot :=
  let total := lu.lineup.length
  let index := lu.currentIndex % total
  lu.lineup.getD index emptySlot

/-- `moveToNextBatter` from `src/unnamed/part_004`. -/
def moveToNextBatter (lu : TeamLineupState) : TeamLineupState :=
  { lu with currentIndex := (lu.currentIndex + 1) % lu.lineup.length }

/-- `toggleHalf` from `src/unnamed/part_004`. -/
def toggleHalf : GameHalf → GameHalf
  | .top => .bottom
  | .bottom => .top

/-! ## Live game store (src/src/store/statsStore.ts, second file: the game
store) -/

/-- One scoreboard entry: `{ runs, hits, errors, inningRuns }`. -/
structure TeamScore where
  runs : Nat
  hits : Nat
  errors : Nat
  inningRuns : List (Nat × Nat)
deriving DecidableEq, Repr

/-- `ScoreboardState`: `Record<teamId, TeamScore>`. -/
abbrev ScoreboardState : Type := List (String × TeamScore)

/-- `GameEvent` from `src/unnamed/part_001`; the nondeterministic `id` /
`timestamp` and the optional `notes` are omitted (nothing embedded reads
them). -/
structure GameEvent where
  gameId : String
  eventType : EventType
  batterId : String
  defenderId : Option String
  runnerId : Option String
  inning : Nat
  half : GameHalf
  baseStateBefore : BaseState
  baseStateAfter : BaseState
  runsScored : Nat
  rbi : Nat
deriving DecidableEq, Repr

/-- `LiveGameState` from `src/unnamed/part_001`; the presentational fields
`type`, `teamLabels`, `teamOrder`, `leagueId` are omitted (no reducer reads
them). -/
structure LiveGameState where
  gameId : String
  inning : Nat
  half : GameHalf
  outs : Nat
  strikes : Nat
  offenseTeamId : String
  defenseTeamId : String
  bases : BaseState
  scoreboard : ScoreboardState
  lineups : List (String × TeamLineupState)
  plannedInnings : Nat
  isComplete : Bool
deriving DecidableEq, Repr

/-- The game store state (`GameStoreState`): the engine-owned fields `live`,
`events`, `recentPlays`.  `undoStack` and `initial` belong to the undo
component, which is missing from the sources and modelled from the spec:
`undoStack` is the LIFO of applied events, and `initial` is the
game-creation snapshot that replay folds from. -/
structure GameStore where
  live : Option LiveGameState
  events : List GameEvent
  recentPlays : List GameEvent
  undoStack : List GameEvent
  initial : LiveGameState
deriving DecidableEq, Repr

/-- `createScoreboardState`: a zeroed entry per team id, built by
`reduce` (object assignment = spread-update). -/
def createScoreboardState (teamIds : List String) : ScoreboardState :=
  teamIds.foldl
    (fun acc teamId =>
      recUpdate acc teamId { runs := 0, hits := 0, errors := 0, inningRuns := [] })
    []

/-- `toLineupState`: ordered lineup with `battingOrder = index + 1` and
cursor 0. -/
def toLineupState (teamId : String) (players : List String) :
    TeamLineupState :=
  { teamId := teamId
    lineup := players.enum.map
      (fun p => { playerId := p.2, battingOrder := p.1 + 1 })
    currentIndex := 0 }

/-- `initialLiveState`: inning 1, top half, zero outs/strikes, team A on
offense, empty bases, zeroed scoreboard (the random `gameId` of the source
is a parameter here). -/
def initialLiveState (gameId teamAId teamBId : String)
    (lineups : List (String × TeamLineupState)) : LiveGameState :=
  { gameId := gameId
    inning := 1
    half := .top
    outs := 0
    strikes := 0
    offenseTeamId := teamAId
    defenseTeamId := teamBId
    bases := EMPTY_BASES
    scoreboard := createScoreboardState [teamAId, teamBId]
    lineups := lineups
    plannedInnings := 1
    isComplete := false }

/-- `rotateSides` from the game store: flip the half, bump the inning when
leaving the bottom half, extend `plannedInnings`, zero outs/strikes, clear
the bases, and swap offense/defense. -/
def rotateSides (live : LiveGameState) : LiveGameState :=
  let nextHalf := toggleHalf live.half
  let nextInning := if live.half = .bottom then live.inning + 1 else live.inning
  { live with
    half := nextHalf
    inning := nextInning
    plannedInnings := max live.plannedInnings nextInning
    outs := 0
    strikes := 0
    bases := EMPTY_BASES
    offenseTeamId := live.defenseTeamId
    defenseTeamId := live.offenseTeamId }

/-- `appendEvent`: push onto the event log and the recent-plays strip
(`slice(0, 6)`).  The `undoStack` push is the spec-modelled bookkeeping of
the missing undo component (spec §4.4: a LIFO of applied events). -/
def appendEvent (s : GameStore) (event : GameEvent) : GameStore :=
  { s with
    events := s.events ++ [event]
    recentPlays := (event :: s.recentPlays).take 6
    undoStack := event :: s.undoStack }

/-- `createEventPayload` defaults merged with the per-site overrides of
`logHit`. -/
def hitEvent (live : LiveGameState) (t : HitType) (result : HitResult)
    (batterId : String) : GameEvent :=
  { gameId := live.gameId
    eventType := hitEventType t
    batterId := batterId
    defenderId := none
    runnerId := none
    inning := live.inning
    half := live.half
    baseStateBefore := result.before
    baseStateAfter := result.after
    runsScored := result.runsScored
    rbi := result.rbi }

/-- The fallback values for the record lookups the source assumes present. -/
def emptyLineupState : TeamLineupState :=
  { teamId := "", lineup := [], currentIndex := 0 }

/-- Zeroed scoreboard entry. -/
def zeroScore : TeamScore := { runs := 0, hits := 0, errors := 0, inningRuns := [] }

/-- The live-state half of `logHit` (the body after the null-guard),
returning the next state and the event to append. -/
def logHitLive (t : HitType) (live : LiveGameState) :
    LiveGameState × GameEvent :=
  let offenseLineup := recGetD live.lineups live.offenseTeamId emptyLineupState
  let batter := getCurrentBatter offenseLineup
  let hitValue := hitValueMap t
  let result := advanceRunnersForHit live.bases hitValue batter.playerId
  let oldScore := recGetD live.scoreboard live.offenseTeamId zeroScore
  let updatedScoreboard := recUpdate live.scoreboard live.offenseTeamId
    { oldScore with
      runs := oldScore.runs + result.runsScored
      hits := oldScore.hits + 1
      inningRuns := recUpdate oldScore.inningRuns live.inning
        (recGetD oldScore.inningRuns live.inning 0 + result.runsScored) }
  let event := hitEvent live t result batter.playerId
  let newLineups := recUpdate live.lineups live.offenseTeamId
    (moveToNextBatter offenseLineup)
  let updatedLive : LiveGameState :=
    { live with
      bases := result.after
      strikes := 0
      lineups := newLineups
      scoreboard := updatedScoreboard }
  (updatedLive, event)

/-- `logHit` from the game store. -/
def logHit (t : HitType) (s : GameStore) : GameStore :=
  match s.live with
  | none => s
  | some live =>
      let r := logHitLive t live
      appendEvent { s with live := some r.1 } r.2

/-- The strikeout event of `logStrike` (all `createEventPayload` defaults:
zero runs, bases unchanged). -/
def strikeoutEvent (live : LiveGameState) (batterId : String) : GameEvent :=
  { gameId := live.gameId
    eventType := .strikeout
    batterId := batterId
    defenderId := none
    runnerId := none
    inning := live.inning
    half := live.half
    baseStateBefore := live.bases
    baseStateAfter := live.bases
    runsScored := 0
    rbi := 0 }

/-- The strikeout resolution inside `logStrike` (the `strikes == 2`
branch): reset strikes, add the out, advance the batter, rotate at three
outs. -/
def strikeoutLive (live : LiveGameState) : LiveGameState :=
  let lineup := recGetD live.lineups live.offenseTeamId emptyLineupState
  let updatedLive : LiveGameState :=
    { live with
      strikes := 0
      outs := live.outs + 1
      lineups := recUpdate live.lineups live.offenseTeamId
        (moveToNextBatter lineup) }
  if updatedLive.outs ≥ 3 then rotateSides updatedLive else updatedLive

/-- The live-state half of `logStrike`: below two strikes only the strike
count moves and no event is produced; at two strikes a strikeout event is
produced. -/
def logStrikeLive (live : LiveGameState) :
    LiveGameState × Option GameEvent :=
  if live.strikes < 2 then
    ({ live with strikes := live.strikes + 1 }, none)
  else
    let lineup := recGetD live.lineups live.offenseTeamId emptyLineupState
    let batter := getCurrentBatter lineup
    (strikeoutLive live, some (strikeoutEvent live batter.playerId))

/-- `logStrike` from the game store. -/
def logStrike (s : GameStore) : GameStore :=
  match s.live with
  | none => s
  | some live =>
      match logStrikeLive live with
      | (updatedLive, none) => { s with live := some updatedLive }
      | (updatedLive, some event) =>
          appendEvent { s with live := some updatedLive } event

/-- The error event of `logError`. -/
def errorEvent (live : LiveGameState) (defenderId : String)
    (batterId : String) : GameEvent :=
  { gameId := live.gameId
    eventType := .error
    batterId := batterId
    defenderId := some defenderId
    runnerId := none
    inning := live.inning
    half := live.half
    baseStateBefore := live.bases
    baseStateAfter := live.bases
    runsScored := 0
    rbi := 0 }

/-- The live-state half of `logError`: always charges the defense an
error; below two strikes it additionally bumps the strike count, at two
strikes it resolves like a strikeout. -/
def logErrorLive (defenderId : String) (live : LiveGameState) :
    LiveGameState × GameEvent :=
  let lineup := recGetD live.lineups live.offenseTeamId emptyLineupState
  let batter := getCurrentBatter lineup
  let event := errorEvent live defenderId batter.playerId
  let oldScore := recGetD live.scoreboard live.defenseTeamId zeroScore
  let updatedScoreboard := recUpdate live.scoreboard live.defenseTeamId
    { oldScore with errors := oldScore.errors + 1 }
  if live.strikes < 2 then
    ({ live with
        strikes := live.strikes + 1
        scoreboard := updatedScoreboard },
     event)
  else
    let updatedLive : LiveGameState :=
      { live with
        strikes := 0
        outs := live.outs + 1
        scoreboard := updatedScoreboard
        lineups := recUpdate live.lineups live.offenseTeamId
          (moveToNextBatter lineup) }
    let updatedLive :=
      if updatedLive.outs ≥ 3 then rotateSides updatedLive else updatedLive
    (updatedLive, event)

/-- `logError` from the game store. -/
def logError (defenderId : String) (s : GameStore) : GameStore :=
  match s.live with
  | none => s
  | some live =>
      let r := logErrorLive defenderId live
      appendEvent { s with live := some r.1 } r.2

/-- The caught-out event of `logCaughtOut`. -/
def caughtOutEvent (live : LiveGameState) (defenderId : String)
    (batterId : String) : GameEvent :=
  { gameId := live.gameId
    eventType := .caught_out
    batterId := batterId
    defenderId := some defenderId
    runnerId := none
    inning := live.inning
    half := live.half
    baseStateBefore := live.bases
    baseStateAfter := live.bases
    runsScored := 0
    rbi := 0 }

/-- The live-state half of `logCaughtOut`: unconditional out, strike
reset, batter advance, rotation at three outs. -/
def logCaughtOutLive (defenderId : String) (live : LiveGameState) :
    LiveGameState × GameEvent :=
  let lineup := recGetD live.lineups live.offenseTeamId emptyLineupState
  let batter := getCurrentBatter lineup
  let event := caughtOutEvent live defenderId batter.playerId
  let updatedLive : LiveGameState :=
    { live with
      outs := live.outs + 1
      strikes := 0
      lineups := recUpdate live.lineups live.offenseTeamId
        (moveToNextBatter lineup) }
  let updatedLive :=
    if updatedLive.outs ≥ 3 then rotateSides updatedLive else updatedLive
  (updatedLive, event)

/-- `logCaughtOut` from the game store. -/
def logCaughtOut (defenderId : String) (s : GameStore) : GameStore :=
  match s.live with
  | none => s
  | some live =>
      let r := logCaughtOutLive defenderId live
      appendEvent { s with live := some r.1 } r.2

/-- The steal event of `logSteal`. -/
def stealEvent (live : LiveGameState) (runnerId defenderId : String)
    (success : Bool) (result : StealResult) (batterId : String) : GameEvent :=
  { gameId := live.gameId
    eventType := if success then .steal_success else .steal_fail
    batterId := batterId
    defenderId := some defenderId
    runnerId := some runnerId
    inning := live.inning
    half := live.half
    baseStateBefore := result.before
    baseStateAfter := result.after
    runsScored := if success then result.runsScored else 0
    rbi := if success then result.runsScored else 0 }

/-- The live-state half of `logSteal`: resolves the steal, credits the
offense with any run scored, adds an out on failure, rotates at three outs,
and produces one event stamped with the current batter. -/
def logStealLive (runnerId defenderId : String) (success : Bool)
    (live : LiveGameState) : LiveGameState × GameEvent :=
  let result := resolveSteal live.bases runnerId success
  let updatedLive₀ : LiveGameState := { live with bases := result.after }
  let updatedLive₁ :=
    if success ∧ result.runsScored ≠ 0 then
      let oldScore := recGetD live.scoreboard live.offenseTeamId zeroScore
      { updatedLive₀ with
        scoreboard := recUpdate live.scoreboard live.offenseTeamId
          { oldScore with
            runs := oldScore.runs + result.runsScored
            inningRuns := recUpdate oldScore.inningRuns live.inning
              (recGetD oldScore.inningRuns live.inning 0 + result.runsScored) } }
    else updatedLive₀
  let updatedLive₂ :=
    if success then updatedLive₁
    else { updatedLive₁ with outs := updatedLive₁.outs + 1 }
  let updatedLive₃ :=
    if updatedLive₂.outs ≥ 3 then rotateSides updatedLive₂ else updatedLive₂
  let lineup := recGetD live.lineups live.offenseTeamId emptyLineupState
  let batter := getCurrentBatter lineup
  let event := stealEvent live runnerId defenderId success result batter.playerId
  (updatedLive₃, event)

/-- `logSteal` from the game store. -/
def logSteal (runnerId defenderId : String) (success : Bool)
    (s : GameStore) : GameStore :=
  match s.live with
  | none => s
  | some live =>
      let r := logStealLive runnerId defenderId success live
      appendEvent { s with live := some r.1 } r.2

/-- `startGame` (both the friendly and the league branch end in the same
`initialLiveState` call; the random team/game ids are parameters): a fresh
store with an empty log. -/
def startGameWith (gameId teamAId teamBId : String)
    (playersA playersB : List String) : GameStore :=
  let lineups := recUpdate
    (recUpdate [] teamAId (toLineupState teamAId playersA))
    teamBId (toLineupState teamBId playersB)
  let live := initialLiveState gameId teamAId teamBId lineups
  { live := some live
    events := []
    recentPlays := []
    undoStack := []
    initial := live }

/-! ## Undo (modelled from the spec) -/

/-- Modelled from the spec: the undo component's replay step (missing from
the sources; only its `undoLastAction` / `undoStack` call sites exist).
Spec §4.4: undo "recomputes LivePlayState by replaying the remaining log
from the initial empty state through all surviving Events using the same
reducers" — each logged event is folded through the live-state transition
of the reducer that produced its kind. -/
def replayEvent (live : LiveGameState) (e : GameEvent) : LiveGameState :=
  match e.eventType with
  | .single => (logHitLive .single live).1
  | .double => (logHitLive .double live).1
  | .triple => (logHitLive .triple live).1
  | .homerun => (logHitLive .homerun live).1
  | .strike => (logStrikeLive live).1
  | .strikeout => strikeoutLive live
  | .error => (logErrorLive (e.defenderId.getD "") live).1
  | .caught_out => (logCaughtOutLive (e.defenderId.getD "") live).1
  | .steal_success =>
      (logStealLive (e.runnerId.getD "") (e.defenderId.getD "") true live).1
  | .steal_fail =>
      (logStealLive (e.runnerId.getD "") (e.defenderId.getD "") false live).1

/-- Modelled from the spec: full replay of an event log from the
game-creation snapshot. -/
def replay (init : LiveGameState) (events : List GameEvent) : LiveGameState :=
  events.foldl replayEvent init

/-- Modelled from the spec: `undoLastAction` (missing from the sources).
Spec §4.4: removes the most recent event from the log — a no-op when the
log is empty — and recomputes the live state by replaying the surviving
log from the initial state. -/
def undoLastAction (s : GameStore) : GameStore :=
  if s.events.isEmpty then s
  else
    let surviving := s.events.dropLast
    { s with
      events := surviving
      live := some (replay s.initial surviving)
      recentPlays := surviving.reverse.take 6
      undoStack := s.undoStack.drop 1 }

/-! ## Scoring actions as a closed alphabet -/

/-- One operator scoring action: an invocation of one of the five `log*`
reducers with its payload. -/
inductive Action
  | hit (t : HitType)
  | strike
  | error (defenderId : String)
  | caughtOut (defenderId : String)
  | steal (runnerId defenderId : String) (success : Bool)
deriving DecidableEq, Repr

/-- Dispatch an action to its reducer. -/
def applyAction (s : GameStore) (a : Action) : GameStore :=
  match a with
  | .hit t => logHit t s
  | .strike => logStrike s
  | .error d => logError d s
  | .caughtOut d => logCaughtOut d s
  | .steal r d success => logSteal r d success s

/-- Apply a sequence of actions in call order. -/
def applyActions (s : GameStore) (acts : List Action) : GameStore :=
  acts.foldl applyAction s

/-- Whether an action invocation appends an event from the given live
state: every reducer does except a strike below two strikes. -/
def producesEvent (a : Action) (live : LiveGameState) : Bool :=
  match a with
  | .strike => !(live.strikes < 2)
  | _ => true

/-! ## Stats aggregator (src/unnamed/part_000) -/

/-- `GameMode`. -/
inductive GameMode
  | friendly
  | league
deriving DecidableEq, Repr

/-- `Game` restricted to the fields the aggregator reads; `startYear`
embeds `new Date(game.startTime).getFullYear()`. -/
structure Game where
  id : String
  type : GameMode
  leagueId : Option String
  startYear : Nat
deriving DecidableEq, Repr

/-- `StatScope`. -/
inductive StatScope
  | overall
  | year
  | league
deriving DecidableEq, Repr

/-- The optional `year` / `leagueId` of the scope options. -/
structure ScopeOpts where
  year : Option Nat
  leagueId : Option String
deriving DecidableEq, Repr

/-- `PlayerIdentity` restricted to the fields the leaderboard reads. -/
structure PlayerIdentity where
  id : String
  displayName : String
deriving DecidableEq, Repr

/-- `defaultScopeYear`: the most recent year among the supplied games
(`sort desc` then `[0]`), falling back to the current year (`nowYear`
parameter, for the impure `new Date().getFullYear()`). -/
def defaultScopeYear (nowYear : Nat) (games : List Game) : Nat :=
  match (games.map (·.startYear)).maximum with
  | some y => y
  | none => nowYear

/-- `new Map(games.map((game) => [game.id, game]))`: last entry wins on a
duplicate id, as with the JS `Map` constructor. -/
def gameLookup (games : List Game) : List (String × Game) :=
  games.foldl (fun acc g => recUpdate acc g.id g) []

/-- `filterEventsByScope` from `src/unnamed/part_000`: `overall` returns
every event unfiltered; `year` and `league` keep only events whose game is
found in the lookup and matches the year / league condition. -/
def filterEventsByScope (events : List GameEvent) (games : List Game)
    (scope : StatScope) (opts : ScopeOpts) (nowYear : Nat) :
    List GameEvent :=
  match scope with
  | .overall => events
  | .year =>
      let lookup := gameLookup games
      let targetYear := opts.year.getD (defaultScopeYear nowYear games)
      events.filter (fun event =>
        match recGet? lookup event.gameId with
        | none => false
        | some game => game.startYear = targetYear)
  | .league =>
      let lookup := gameLookup games
      events.filter (fun event =>
        match recGet? lookup event.gameId with
        | none => false
        | some game =>
            match opts.leagueId with
            | some lid => game.leagueId = some lid
            | none => game.type = .league)

/-- `Totals` from `src/unnamed/part_000`. -/
structure Totals where
  atBats : Nat
  singles : Nat
  doubles : Nat
  triples : Nat
  homeruns : Nat
  strikeouts : Nat
  catches : Nat
  errors : Nat
  stealsAttempted : Nat
  stealsWon : Nat
  stealsLost : Nat
  basesDefended : Nat
  basesStolen : Nat
  hits : Nat
  totalBases : Nat
  rbi : Nat
deriving DecidableEq, Repr

/-- `zeroTotals`. -/
def zeroTotals : Totals :=
  { atBats := 0, singles := 0, doubles := 0, triples := 0, homeruns := 0,
    strikeouts := 0, catches := 0, errors := 0, stealsAttempted := 0,
    stealsWon := 0, stealsLost := 0, basesDefended := 0, basesStolen := 0,
    hits := 0, totalBases := 0, rbi := 0 }

/-- `eventBaseValue` (for a non-hit event type the record lookup is absent;
never reached). -/
def eventBaseValue : EventType → Nat
  | .single => 1
  | .double => 2
  | .triple => 3
  | .homerun => 4
  | _ => 0

/-- `ensurePlayerTotals`: create the zero entry if absent. -/
def ensurePlayerTotals (store : List (String × Totals)) (playerId : String) :
    List (String × Totals) :=
  match recGet? store playerId with
  | some _ => store
  | none => recUpdate store playerId zeroTotals

/-- Mutation of the entry returned by `ensurePlayerTotals` (`totals.x += 1`
on the stored object). -/
def bumpTotals (store : List (String × Totals)) (playerId : String)
    (f : Totals → Totals) : List (String × Totals) :=
  let store := ensurePlayerTotals store playerId
  recUpdate store playerId (f (recGetD store playerId zeroTotals))

/-- `markGameParticipation`: per-player set of game ids. -/
def markGameParticipation (m : List (String × List String))
    (playerId gameId : String) : List (String × List String) :=
  match recGet? m playerId with
  | none => recUpdate m playerId [gameId]
  | some s => recUpdate m playerId (if gameId ∈ s then s else s ++ [gameId])

/-- The accumulator of the `scopedEvents.forEach` fold: the per-player
totals and the game-participation sets. -/
structure AggAcc where
  totals : List (String × Totals)
  participation : List (String × List String)
deriving DecidableEq, Repr

/-- One iteration of the `scopedEvents.forEach` loop of
`buildIndividualLeaderboard`: ensure the batter's entry, mark their
participation, then dispatch on the event type, crediting the batter
(hits, strikeouts, caught-outs), the defender (errors, catches, defended
bases) or the runner (steal attempts, wins, losses, stolen bases, steal
RBI). -/
def aggStep (acc : AggAcc) (event : GameEvent) : AggAcc :=
  let totals := ensurePlayerTotals acc.totals event.batterId
  let participation :=
    markGameParticipation acc.participation event.batterId event.gameId
  let acc₁ : AggAcc :=
    match event.eventType with
    | .single | .double | .triple | .homerun =>
        let bases := eventBaseValue event.eventType
        let totals := bumpTotals totals event.batterId (fun t =>
          let t := { t with
            atBats := t.atBats + 1
            hits := t.hits + 1
            totalBases := t.totalBases + bases
            rbi := t.rbi + event.rbi }
          let t := if event.eventType = .single then { t with singles := t.singles + 1 } else t
          let t := if event.eventType = .double then { t with doubles := t.doubles + 1 } else t
          let t := if event.eventType = .triple then { t with triples := t.triples + 1 } else t
          if event.eventType = .homerun then { t with homeruns := t.homeruns + 1 } else t)
        { totals := totals, participation := participation }
    | .strikeout =>
        { totals := bumpTotals totals event.batterId (fun t =>
            { t with atBats := t.atBats + 1, strikeouts := t.strikeouts + 1 })
          participation := participation }
    | .caught_out =>
        { totals := bumpTotals totals event.batterId (fun t =>
            { t with atBats := t.atBats + 1 })
          participation := participation }
    | .error =>
        match event.defenderId with
        | some defenderId =>
            { totals := bumpTotals totals defenderId (fun t =>
                { t with errors := t.errors + 1 })
              participation := participation }
        | none => { totals := totals, participation := participation }
    | .steal_success | .steal_fail =>
        let acc' : AggAcc :=
          match event.runnerId with
          | some runnerId =>
              let participation :=
                markGameParticipation participation runnerId event.gameId
              let totals := bumpTotals totals runnerId (fun t =>
                let t := { t with stealsAttempted := t.stealsAttempted + 1 }
                if event.eventType = .steal_success then
                  { t with
                    stealsWon := t.stealsWon + 1
                    basesStolen := t.basesStolen + 1
                    rbi := t.rbi + event.rbi }
                else
                  { t with stealsLost := t.stealsLost + 1 })
              { totals := totals, participation := participation }
          | none => { totals := totals, participation := participation }
        match event.defenderId with
        | some defenderId =>
            { totals := bumpTotals acc'.totals defenderId (fun t =>
                { t with basesDefended := t.basesDefended + 1 })
              participation :=
                markGameParticipation acc'.participation defenderId event.gameId }
        | none => acc'
    | .strike => { totals := totals, participation := participation }
  if event.eventType = .caught_out then
    match event.defenderId with
    | some defenderId =>
        { acc₁ with totals := bumpTotals acc₁.totals defenderId (fun t =>
            { t with catches := t.catches + 1 }) }
    | none => acc₁
  else acc₁

/-- The derived per-player stats of a leaderboard row. -/
structure IndividualStats where
  gamesPlayed : Nat
  atBats : Nat
  hits : Nat
  singles : Nat
  doubles : Nat
  triples : Nat
  homeruns : Nat
  strikeouts : Nat
  battingAverage : ℚ
  slugging : ℚ
  catches : Nat
  errors : Nat
  stealsAttempted : Nat
  stealsWon : Nat
  stealsLost : Nat
  basesDefended : Nat
  basesStolen : Nat
  rbi : Nat
deriving DecidableEq, Repr

/-- `IndividualStatsRow` (presentational `brotherId` / `teamId` omitted). -/
structure IndividualStatsRow where
  playerId : String
  displayName : String
  stats : IndividualStats
deriving DecidableEq, Repr

/-- The row construction of `buildIndividualLeaderboard`: batting average
is hits over at-bats and slugging is total bases over at-bats, both zero
when the player has no at-bats (exact rationals for the TS float
division). -/
def mkRow (players : List (String × PlayerIdentity))
    (participation : List (String × List String))
    (entry : String × Totals) : IndividualStatsRow :=
  let playerId := entry.1
  let statTotals := entry.2
  let hits := statTotals.hits
  let display := recGet? players playerId
  { playerId := playerId
    displayName := (display.map (·.displayName)).getD "Unknown Player"
    stats :=
      { gamesPlayed := ((recGet? participation playerId).map (·.length)).getD 0
        atBats := statTotals.atBats
        hits := hits
        singles := statTotals.singles
        doubles := statTotals.doubles
        triples := statTotals.triples
        homeruns := statTotals.homeruns
        strikeouts := statTotals.strikeouts
        battingAverage :=
          if statTotals.atBats ≠ 0 then (hits : ℚ) / statTotals.atBats else 0
        slugging :=
          if statTotals.atBats ≠ 0 then
            (statTotals.totalBases : ℚ) / statTotals.atBats
          else 0
        catches := statTotals.catches
        errors := statTotals.errors
        stealsAttempted := statTotals.stealsAttempted
        stealsWon := statTotals.stealsWon
        stealsLost := statTotals.stealsLost
        basesDefended := statTotals.basesDefended
        basesStolen := statTotals.basesStolen
        rbi := statTotals.rbi } }

/-- Rows of the leaderboard before the final sort. -/
def leaderboardRows (events : List GameEvent) (games : List Game)
    (players : List PlayerIdentity) (scope : StatScope) (opts : ScopeOpts)
    (nowYear : Nat) : List IndividualStatsRow :=
  let scopedEvents := filterEventsByScope events games scope opts nowYear
  let acc := scopedEvents.foldl aggStep
    { totals := [], participation := [] }
  let playerLookup := players.foldl (fun m p => recUpdate m p.id p) []
  acc.totals.map (mkRow playerLookup acc.participation)

/-- `buildIndividualLeaderboard` from `src/unnamed/part_000`: filter the
events to the scope, fold them into per-player totals, derive the rate
stats, and sort descending by the requested stat (`sortVal` embeds the
`sortBy` key selector; rows are compared by `b.stats[sortBy] -
a.stats[sortBy]`). -/
def buildIndividualLeaderboard (events : List GameEvent) (games : List Game)
    (players : List PlayerIdentity) (scope : StatScope) (opts : ScopeOpts)
    (sortVal : IndividualStats → ℚ) (nowYear : Nat) :
    List IndividualStatsRow :=
  let rows := leaderboardRows events games players scope opts nowYear
  rows.mergeSort (fun a b => sortVal b.stats ≤ sortVal a.stats)

/-! ## Statement helpers and sample inputs -/

/-- Slot `j` (1 = first, 2 = second, 3 = third) of a base state. -/
def baseAt (b : BaseState) : Nat → Option String
  | 1 => b.first
  | 2 => b.second
  | 3 => b.third
  | _ => none

/-- The number of occupied bases whose occupant's destination index passes
third when advancing `n` slots. -/
def scoringRunners (b : BaseState) (n : Nat) : Nat :=
  (if b.first.isSome ∧ 1 + n ≥ 4 then 1 else 0) +
  (if b.second.isSome ∧ 2 + n ≥ 4 then 1 else 0) +
  (if b.third.isSome ∧ 3 + n ≥ 4 then 1 else 0)

/-- No runner id occupies two bases (the `BaseState` data-model
invariant). -/
def NoDouble (b : BaseState) : Prop :=
  (b.first = none ∨ b.first ≠ b.second) ∧
  (b.first = none ∨ b.first ≠ b.third) ∧
  (b.second = none ∨ b.second ≠ b.third)

/-- The batter is not already standing on a base. -/
def batterFree (b : BaseState) (x : String) : Prop :=
  b.first ≠ some x ∧ b.second ≠ some x ∧ b.third ≠ some x

/-- The pre-rotation state of a strikeout resolution: strikes reset, one
out added, batting cursor advanced. -/
def strikeoutMid (l : LiveGameState) : LiveGameState :=
  { l with
    strikes := 0
    outs := l.outs + 1
    lineups := recUpdate l.lineups l.offenseTeamId
      (moveToNextBatter (recGetD l.lineups l.offenseTeamId emptyLineupState)) }

/-- The pre-rotation state of an error at two strikes: like a strikeout,
plus the defense's error tally. -/
def errorOutMid (l : LiveGameState) : LiveGameState :=
  { l with
    strikes := 0
    outs := l.outs + 1
    scoreboard := recUpdate l.scoreboard l.defenseTeamId
      { recGetD l.scoreboard l.defenseTeamId zeroScore with
        errors := (recGetD l.scoreboard l.defenseTeamId zeroScore).errors + 1 }
    lineups := recUpdate l.lineups l.offenseTeamId
      (moveToNextBatter (recGetD l.lineups l.offenseTeamId emptyLineupState)) }

/-- The pre-rotation state of a caught-out. -/
def caughtOutMid (l : LiveGameState) : LiveGameState :=
  { l with
    outs := l.outs + 1
    strikes := 0
    lineups := recUpdate l.lineups l.offenseTeamId
      (moveToNextBatter (recGetD l.lineups l.offenseTeamId emptyLineupState)) }

/-- The pre-rotation state of a failed steal. -/
def stealFailMid (l : LiveGameState) (runnerId : String) : LiveGameState :=
  { l with
    bases := (resolveSteal l.bases runnerId false).after
    outs := l.outs + 1 }

/-- Total of the scoreboard's per-team `runs`. -/
def sumRuns (sb : ScoreboardState) : Nat :=
  (sb.map (fun p => p.2.runs)).sum

/-- Total of the logged events' `runsScored`. -/
def sumEvents (evs : List GameEvent) : Nat :=
  (evs.map (fun e => e.runsScored)).sum

/-- Total of a team's per-inning run entries. -/
def sumInningRuns (ir : List (Nat × Nat)) : Nat :=
  (ir.map (fun p => p.2)).sum

/-- The run-accounting invariant between a live state and the event log:
both team ids are scoreboard keys, scoreboard runs total the logged runs,
and each team's per-inning entries total its runs. -/
def ScoreInv (l : LiveGameState) (events : List GameEvent) : Prop :=
  l.offenseTeamId ∈ l.scoreboard.map Prod.fst ∧
  l.defenseTeamId ∈ l.scoreboard.map Prod.fst ∧
  sumRuns l.scoreboard = sumEvents events ∧
  ∀ p ∈ l.scoreboard, sumInningRuns p.2.inningRuns = p.2.runs

/-- A store whose live state exists and satisfies the run-accounting
invariant against its own event log. -/
def StoreInv (s : GameStore) : Prop :=
  ∃ l, s.live = some l ∧ ScoreInv l s.events

/-- Per-player totals whose hit count and total bases are compatible with
the at-bat count. -/
def TotalsBounded (t : Totals) : Prop :=
  t.hits ≤ t.atBats ∧ t.totalBases ≤ 4 * t.atBats

/-- The runner's RBI tally inside an aggregation accumulator. -/
def rbiOf (acc : AggAcc) (p : String) : Nat :=
  (recGetD acc.totals p zeroTotals).rbi

/-- Sample game: two teams of two. -/
def sampleStore : GameStore :=
  startGameWith "game-1" "team-a" "team-b" ["ann", "ben"] ["cal", "dee"]

/-- Sample store with the batter at two strikes. -/
def twoStrikeStore : GameStore :=
  { sampleStore with live := some { sampleStore.initial with strikes := 2 } }

/-- Sample store at two strikes and two outs (next strikeout rotates). -/
def lateStore : GameStore :=
  { sampleStore with
    live := some { sampleStore.initial with strikes := 2, outs := 2 } }

/-- Sample store at two outs (next caught-out or failed steal rotates). -/
def twoOutStore : GameStore :=
  { sampleStore with live := some { sampleStore.initial with outs := 2 } }

/-- Sample live state with a runner on third. -/
def stealHomeLive : LiveGameState :=
  { sampleStore.initial with
    bases := { first := none, second := none, third := some "ben" } }

/-- Sample store with a runner on third. -/
def stealHomeStore : GameStore :=
  { sampleStore with live := some stealHomeLive }

/-- A mixed action script for exercising the run-accounting invariant. -/
def sampleActs : List Action :=
  [.hit .single, .strike, .hit .homerun, .steal "ann" "cal" false,
   .caughtOut "dee", .error "cal", .strike, .strike, .strike,
   .hit .triple, .steal "ben" "dee" true]

/-- The live state after running `sampleActs` from the sample game. -/
def sampleActsLive : LiveGameState :=
  ((applyActions sampleStore sampleActs).live).getD
    (initialLiveState "" "" "" [])

/-- An event whose game id matches no recorded game. -/
def ghostEvent : GameEvent :=
  { gameId := "ghost"
    eventType := .single
    batterId := "p1"
    defenderId := none
    runnerId := none
    inning := 1
    half := .top
    baseStateBefore := EMPTY_BASES
    baseStateAfter := EMPTY_BASES
    runsScored := 0
    rbi := 1 }

/-- The aggregator row produced for the runner of `stealHomeEvent`. -/
def benRow : IndividualStatsRow :=
  { playerId := "ben"
    displayName := "Unknown Player"
    stats :=
      { gamesPlayed := 1, atBats := 0, hits := 0, singles := 0, doubles := 0,
        triples := 0, homeruns := 0, strikeouts := 0, battingAverage := 0,
        slugging := 0, catches := 0, errors := 0, stealsAttempted := 1,
        stealsWon := 1, stealsLost := 0, basesDefended := 0, basesStolen := 1,
        rbi := 1 } }

/-- A recorded game for the scope-filter witnesses. -/
def sampleGame : Game :=
  { id := "game-1", type := .friendly, leagueId := none, startYear := 2026 }

/-- An event belonging to `sampleGame`. -/
def sampleGameEvent : GameEvent :=
  { ghostEvent with gameId := "game-1" }

/-- A steal-home event for the aggregator witnesses. -/
def stealHomeEvent : GameEvent :=
  { gameId := "game-1"
    eventType := .steal_success
    batterId := "ann"
    defenderId := some "cal"
    runnerId := some "ben"
    inning := 1
    half := .top
    baseStateBefore := { first := none, second := none, third := some "ben" }
    baseStateAfter := EMPTY_BASES
    runsScored := 1
    rbi := 1 }

/-! ## Association-list record lemmas -/

section RecLemmas

variable {κ A : Type} [DecidableEq κ]

theorem recGet?_recUpdate_self (m : List (κ × A)) (k : κ) (v : A) :
    recGet? (recUpdate m k v) k = some v := by
  induction m with
  | nil => simp [recUpdate, recGet?]
  | cons p rest ih =>
      obtain ⟨k', v'⟩ := p
      by_cases h : k' = k <;> simp [recUpdate, recGet?, h, ih]

theorem recGet?_recUpdate_ne (m : List (κ × A)) (k p : κ) (v : A)
    (h : p ≠ k) : recGet? (recUpdate m k v) p = recGet? m p := by
  induction m with
  | nil => simp [recUpdate, recGet?, Ne.symm h]
  | cons q rest ih =>
      obtain ⟨k', v'⟩ := q
      by_cases hk : k' = k
      · subst hk
        simp [recUpdate, recGet?, Ne.symm h]
      · by_cases hp : k' = p
        · subst hp
          simp [recUpdate, recGet?, hk]
        · simp [recUpdate, recGet?, hk, hp, ih]

theorem mem_recUpdate {m : List (κ × A)} {k : κ} {v : A}
    {x : κ × A} (hx : x ∈ recUpdate m k v) : x = (k, v) ∨ x ∈ m := by
  induction m with
  | nil => simpa [recUpdate] using hx
  | cons p rest ih =>
      obtain ⟨k', v'⟩ := p
      by_cases h : k' = k
      · subst h
        rcases (by simpa [recUpdate] using hx) with h1 | h1
        · exact Or.inl (by simp [h1])
        · exact Or.inr (List.mem_cons_of_mem _ h1)
      · rcases (by simpa [recUpdate, h] using hx) with h1 | h1
        · exact Or.inr (by simp [h1])
        · rcases ih h1 with h2 | h2
          · exact Or.inl h2
          · exact Or.inr (List.mem_cons_of_mem _ h2)

theorem recGet?_mem {m : List (κ × A)} {k : κ} {v : A}
    (h : recGet? m k = some v) : (k, v) ∈ m := by
  induction m with
  | nil => simp [recGet?] at h
  | cons p rest ih =>
      obtain ⟨k', v'⟩ := p
      by_cases hk : k' = k
      · subst hk
        simp [recGet?] at h
        simp [h]
      · simp [recGet?, hk] at h
        exact List.mem_cons_of_mem _ (ih h)

theorem recUpdate_of_none {m : List (κ × A)} {k : κ} (v : A)
    (h : recGet? m k = none) : recUpdate m k v = m ++ [(k, v)] := by
  induction m with
  | nil => simp [recUpdate]
  | cons p rest ih =>
      obtain ⟨k', v'⟩ := p
      by_cases hk : k' = k
      · simp [recGet?, hk] at h
      · simp [recGet?, hk] at h
        simp [recUpdate, hk, ih h]

theorem keys_recUpdate_of_some {m : List (κ × A)} {k : κ} {w : A} (v : A)
    (h : recGet? m k = some w) :
    (recUpdate m k v).map Prod.fst = m.map Prod.fst := by
  induction m with
  | nil => simp [recGet?] at h
  | cons p rest ih =>
      obtain ⟨k', v'⟩ := p
      by_cases hk : k' = k
      · simp [recUpdate, hk]
      · simp [recGet?, hk] at h
        simp [recUpdate, hk, ih h]

theorem sum_map_recUpdate (f : A → Nat) {m : List (κ × A)} {k : κ}
    {w : A} (v : A) (h : recGet? m k = some w) :
    ((recUpdate m k v).map (fun p => f p.2)).sum + f w =
      (m.map (fun p => f p.2)).sum + f v := by
  induction m with
  | nil => simp [recGet?] at h
  | cons p rest ih =>
      obtain ⟨k', v'⟩ := p
      by_cases hk : k' = k
      · subst hk
        simp [recGet?] at h
        subst h
        simp [recUpdate]
        omega
      · simp [recGet?, hk] at h
        have := ih h
        simp [recUpdate, hk]
        omega

theorem mem_keys_recUpdate {m : List (κ × A)} {a k : κ} (v : A)
    (h : a ∈ m.map Prod.fst) : a ∈ (recUpdate m k v).map Prod.fst := by
  cases hg : recGet? m k with
  | some w => rw [keys_recUpdate_of_some v hg]; exact h
  | none => rw [recUpdate_of_none v hg]; simp; left; simpa using h

theorem self_mem_keys_recUpdate (m : List (κ × A)) (k : κ) (v : A) :
    k ∈ (recUpdate m k v).map Prod.fst := by
  have := recGet?_recUpdate_self m k v
  simpa using (List.mem_map_of_mem Prod.fst (recGet?_mem this))

theorem recGet?_isSome_of_mem_keys {m : List (κ × A)} {a : κ}
    (h : a ∈ m.map Prod.fst) : ∃ v, recGet? m a = some v := by
  induction m with
  | nil => simp at h
  | cons p rest ih =>
      obtain ⟨k', v'⟩ := p
      by_cases hk : k' = a
      · exact ⟨v', by simp [recGet?, hk]⟩
      · rcases (by simpa using h) with h1 | h1
        · exact absurd h1.symm hk
        · obtain ⟨v, hv⟩ := ih (by simpa using h1)
          exact ⟨v, by simp [recGet?, hk, hv]⟩

end RecLemmas

/-- Updating an integer-keyed tally at `k` by `old + d` raises the sum of
the values by `d`. -/
theorem sum_recUpdate_getD_add (ir : List (Nat × Nat)) (i d : Nat) :
    ((recUpdate ir i (recGetD ir i 0 + d)).map (fun p => p.2)).sum =
      (ir.map (fun p => p.2)).sum + d := by
  cases h : recGet? ir i with
  | some o =>
      have hsum := sum_map_recUpdate (fun x => x) (recGetD ir i 0 + d) h
      simp [recGetD, h] at hsum ⊢
      omega
  | none =>
      rw [recUpdate_of_none _ h]
      simp [recGetD, h]

/-! ## Run-accounting invariant lemmas -/

theorem sumEvents_append (evs : List GameEvent) (e : GameEvent) :
    sumEvents (evs ++ [e]) = sumEvents evs + e.runsScored := by
  simp [sumEvents]

/-- Specialization of `sum_map_recUpdate` to scoreboard run totals. -/
theorem sumRuns_recUpdate {sb : ScoreboardState} {team : String}
    {old : TeamScore} (v : TeamScore)
    (hget : recGet? sb team = some old) :
    sumRuns (recUpdate sb team v) + old.runs = sumRuns sb + v.runs := by
  simpa [sumRuns] using sum_map_recUpdate (fun ts => ts.runs) v hget

/-- Crediting a present team with `Δ` runs (and the matching per-inning
entry) raises the scoreboard total by `Δ` and preserves the per-team
inning-run accounting. -/
theorem scoreInvUpdate {sb : ScoreboardState} {team : String}
    {old v : TeamScore} {Δ inn : Nat}
    (hget : recGet? sb team = some old)
    (hr : v.runs = old.runs + Δ)
    (hir : v.inningRuns =
      recUpdate old.inningRuns inn (recGetD old.inningRuns inn 0 + Δ))
    (hper : ∀ p ∈ sb, sumInningRuns p.2.inningRuns = p.2.runs) :
    sumRuns (recUpdate sb team v) = sumRuns sb + Δ ∧
    (∀ p ∈ recUpdate sb team v,
      sumInningRuns p.2.inningRuns = p.2.runs) := by
  constructor
  · have hsum := sumRuns_recUpdate v hget
    omega
  · intro p hp
    rcases mem_recUpdate hp with h1 | h1
    · have hold := hper (team, old) (recGet?_mem hget)
      rw [h1]
      simp only
      rw [hir, hr, sumInningRuns, sum_recUpdate_getD_add]
      simp only [sumInningRuns] at hold
      omega
    · exact hper p h1

/-- Updating a present team without touching runs or inning runs preserves
both accounting facts. -/
theorem scoreInvUpdateSame {sb : ScoreboardState} {team : String}
    {old v : TeamScore}
    (hget : recGet? sb team = some old)
    (hr : v.runs = old.runs)
    (hir : v.inningRuns = old.inningRuns)
    (hper : ∀ p ∈ sb, sumInningRuns p.2.inningRuns = p.2.runs) :
    sumRuns (recUpdate sb team v) = sumRuns sb ∧
    (∀ p ∈ recUpdate sb team v,
      sumInningRuns p.2.inningRuns = p.2.runs) := by
  constructor
  · have hsum := sumRuns_recUpdate v hget
    omega
  · intro p hp
    rcases mem_recUpdate hp with h1 | h1
    · have hold := hper (team, old) (recGet?_mem hget)
      rw [h1]
      simp only
      rw [hir, hr]
      simpa using hold
    · exact hper p h1

/-- `rotateSides` preserves the run-accounting invariant (it swaps the two
member team ids and leaves the scoreboard untouched). -/
theorem scoreInv_rotateSides {l : LiveGameState} {evs : List GameEvent}
    (h : ScoreInv l evs) : ScoreInv (rotateSides l) evs := by
  obtain ⟨ho, hd, hs, hper⟩ := h
  exact ⟨hd, ho, hs, hper⟩

/-- `logHitLive` preserves the run-accounting invariant. -/
theorem scoreInv_logHitLive (t : HitType) {l : LiveGameState}
    {evs : List GameEvent} (h : ScoreInv l evs) :
    ScoreInv (logHitLive t l).1 (evs ++ [(logHitLive t l).2]) := by
  obtain ⟨ho, hd, hs, hper⟩ := h
  obtain ⟨old, hget⟩ := recGet?_isSome_of_mem_keys ho
  have hup := scoreInvUpdate (v := { old with
      runs := old.runs + (advanceRunnersForHit l.bases (hitValueMap t)
        (getCurrentBatter (recGetD l.lineups l.offenseTeamId
          emptyLineupState)).playerId).runsScored
      hits := old.hits + 1
      inningRuns := recUpdate old.inningRuns l.inning
        (recGetD old.inningRuns l.inning 0 +
          (advanceRunnersForHit l.bases (hitValueMap t)
            (getCurrentBatter (recGetD l.lineups l.offenseTeamId
              emptyLineupState)).playerId).runsScored) })
    hget rfl rfl hper
  refine ⟨?_, ?_, ?_, ?_⟩
  · simp only [logHitLive]
    exact mem_keys_recUpdate _ ho
  · simp only [logHitLive]
    exact mem_keys_recUpdate _ hd
  · simp only [logHitLive, hitEvent, sumEvents_append]
    rw [show recGetD l.scoreboard l.offenseTeamId zeroScore = old by
      simp [recGetD, hget]]
    rw [hup.1, hs]
  · simp only [logHitLive]
    intro p hp
    refine hup.2 p ?_
    rw [show recGetD l.scoreboard l.offenseTeamId zeroScore = old by
      simp [recGetD, hget]] at hp
    exact hp

/-- `strikeoutLive` preserves the run-accounting invariant. -/
theorem scoreInv_strikeoutLive {l : LiveGameState} {evs : List GameEvent}
    (h : ScoreInv l evs) : ScoreInv (strikeoutLive l) evs := by
  obtain ⟨ho, hd, hs, hper⟩ := h
  have hmid : ScoreInv { l with
      strikes := 0
      outs := l.outs + 1
      lineups := recUpdate l.lineups l.offenseTeamId
        (moveToNextBatter (recGetD l.lineups l.offenseTeamId
          emptyLineupState)) } evs :=
    ⟨ho, hd, hs, hper⟩
  simp only [strikeoutLive]
  by_cases hout : l.outs + 1 ≥ 3
  · simpa [hout] using scoreInv_rotateSides hmid
  · simpa [hout] using hmid

/-- `logErrorLive` preserves the run-accounting invariant. -/
theorem scoreInv_logErrorLive (d : String) {l : LiveGameState}
    {evs : List GameEvent} (h : ScoreInv l evs) :
    ScoreInv (logErrorLive d l).1 (evs ++ [(logErrorLive d l).2]) := by
  obtain ⟨ho, hd, hs, hper⟩ := h
  obtain ⟨old, hget⟩ := recGet?_isSome_of_mem_keys hd
  have hold : recGetD l.scoreboard l.defenseTeamId zeroScore = old := by
    simp [recGetD, hget]
  have hup := scoreInvUpdateSame
    (v := { old with errors := old.errors + 1 }) hget rfl rfl hper
  have hsum : sumRuns (recUpdate l.scoreboard l.defenseTeamId
      { old with errors := old.errors + 1 }) = sumEvents evs := by
    rw [hup.1, hs]
  by_cases hstr : l.strikes < 2
  · refine ⟨?_, ?_, ?_, ?_⟩
    · simp only [logErrorLive, hstr, if_pos, hold]
      exact mem_keys_recUpdate _ ho
    · simp only [logErrorLive, hstr, if_pos, hold]
      exact mem_keys_recUpdate _ hd
    · simp only [logErrorLive, hstr, if_pos, hold, errorEvent,
        sumEvents_append]
      simpa using hsum
    · simp only [logErrorLive, hstr, if_pos, hold]
      exact hup.2
  · have hmid : ScoreInv { l with
        strikes := 0
        outs := l.outs + 1
        scoreboard := recUpdate l.scoreboard l.defenseTeamId
          { old with errors := old.errors + 1 }
        lineups := recUpdate l.lineups l.offenseTeamId
          (moveToNextBatter (recGetD l.lineups l.offenseTeamId
            emptyLineupState)) } (evs ++ [(logErrorLive d l).2]) := by
      refine ⟨mem_keys_recUpdate _ ho, mem_keys_recUpdate _ hd, ?_, hup.2⟩
      simp only [logErrorLive, hstr, if_neg, errorEvent]
      rw [sumEvents_append]
      simpa [errorEvent] using hsum
    by_cases hout : l.outs + 1 ≥ 3
    · have := scoreInv_rotateSides hmid
      simpa [logErrorLive, hstr, hout, hold] using this
    · simpa [logErrorLive, hstr, hout, hold] using hmid

/-- `logCaughtOutLive` preserves the run-accounting invariant. -/
theorem scoreInv_logCaughtOutLive (d : String) {l : LiveGameState}
    {evs : List GameEvent} (h : ScoreInv l evs) :
    ScoreInv (logCaughtOutLive d l).1 (evs ++ [(logCaughtOutLive d l).2]) := by
  obtain ⟨ho, hd, hs, hper⟩ := h
  have hmid : ScoreInv { l with
      outs := l.outs + 1
      strikes := 0
      lineups := recUpdate l.lineups l.offenseTeamId
        (moveToNextBatter (recGetD l.lineups l.offenseTeamId
          emptyLineupState)) } (evs ++ [(logCaughtOutLive d l).2]) := by
    refine ⟨ho, hd, ?_, hper⟩
    rw [sumEvents_append]
    simp [logCaughtOutLive, caughtOutEvent, hs]
  by_cases hout : l.outs + 1 ≥ 3
  · have := scoreInv_rotateSides hmid
    simpa [logCaughtOutLive, hout] using this
  · simpa [logCaughtOutLive, hout] using hmid

/-- `logStealLive` preserves the run-accounting invariant. -/
theorem scoreInv_logStealLive (r d : String) (success : Bool)
    {l : LiveGameState} {evs : List GameEvent} (h : ScoreInv l evs) :
    ScoreInv (logStealLive r d success l).1
      (evs ++ [(logStealLive r d success l).2]) := by
  obtain ⟨ho, hd, hs, hper⟩ := h
  obtain ⟨old, hget⟩ := recGet?_isSome_of_mem_keys ho
  have hold : recGetD l.scoreboard l.offenseTeamId zeroScore = old := by
    simp [recGetD, hget]
  cases success with
  | false =>
      have hmid : ScoreInv { l with
          bases := (resolveSteal l.bases r false).after
          outs := l.outs + 1 } (evs ++ [(logStealLive r d false l).2]) := by
        refine ⟨ho, hd, ?_, hper⟩
        rw [sumEvents_append]
        simp [logStealLive, stealEvent, hs]
      simp only [logStealLive, Bool.false_eq_true, false_and, if_false,
        if_neg (by simp : ¬(False : Prop))]
      norm_num
      by_cases hout : l.outs + 1 ≥ 3
      · simpa [hout] using scoreInv_rotateSides hmid
      · simpa [hout] using hmid
  | true =>
      by_cases hrs : (resolveSteal l.bases r true).runsScored = 0
      · have hmid : ScoreInv { l with
            bases := (resolveSteal l.bases r true).after }
            (evs ++ [(logStealLive r d true l).2]) := by
          refine ⟨ho, hd, ?_, hper⟩
          rw [sumEvents_append]
          simp [logStealLive, stealEvent, hs, hrs]
        simp only [logStealLive]
        norm_num [hrs]
        by_cases hout : l.outs ≥ 3
        · simpa [hout] using scoreInv_rotateSides hmid
        · simpa [hout] using hmid
      · have hup := scoreInvUpdate
          (v := { old with
            runs := old.runs + (resolveSteal l.bases r true).runsScored
            inningRuns := recUpdate old.inningRuns l.inning
              (recGetD old.inningRuns l.inning 0 +
                (resolveSteal l.bases r true).runsScored) })
          hget rfl rfl hper
        have hmid : ScoreInv { l with
            bases := (resolveSteal l.bases r true).after
            scoreboard := recUpdate l.scoreboard l.offenseTeamId
              { old with
                runs := old.runs + (resolveSteal l.bases r true).runsScored
                inningRuns := recUpdate old.inningRuns l.inning
                  (recGetD old.inningRuns l.inning 0 +
                    (resolveSteal l.bases r true).runsScored) } }
            (evs ++ [(logStealLive r d true l).2]) := by
          refine ⟨mem_keys_recUpdate _ ho, mem_keys_recUpdate _ hd, ?_, hup.2⟩
          rw [sumEvents_append]
          simp only [logStealLive, stealEvent]
          rw [hup.1, hs]
          simp
        simp only [logStealLive]
        norm_num [hrs, hold]
        by_cases hout : l.outs ≥ 3
        · simpa [hout] using scoreInv_rotateSides hmid
        · simpa [hout] using hmid

/-- Every reducer application preserves the store-level run-accounting
invariant. -/
theorem storeInv_applyAction (s : GameStore) (a : Action)
    (h : StoreInv s) : StoreInv (applyAction s a) := by
  obtain ⟨l, hl, hsi⟩ := h
  cases a with
  | hit t =>
      exact ⟨(logHitLive t l).1,
        by simp [applyAction, logHit, hl, appendEvent],
        by simpa [applyAction, logHit, hl, appendEvent]
          using scoreInv_logHitLive t hsi⟩
  | strike =>
      by_cases hstr : l.strikes < 2
      · refine ⟨{ l with strikes := l.strikes + 1 },
          by simp [applyAction, logStrike, hl, logStrikeLive, hstr], ?_⟩
        obtain ⟨ho, hd, hs, hper⟩ := hsi
        exact ⟨ho, hd, by
          simpa [applyAction, logStrike, hl, logStrikeLive, hstr] using hs,
          by simpa [applyAction, logStrike, hl, logStrikeLive, hstr]
            using hper⟩
      · refine ⟨strikeoutLive l,
          by simp [applyAction, logStrike, hl, logStrikeLive, hstr,
            appendEvent], ?_⟩
        have hev : (applyAction s .strike).events = s.events ++
            [strikeoutEvent l (getCurrentBatter (recGetD l.lineups
              l.offenseTeamId emptyLineupState)).playerId] := by
          simp [applyAction, logStrike, hl, logStrikeLive, hstr, appendEvent]
        rw [hev]
        have := scoreInv_strikeoutLive hsi
        obtain ⟨ho, hd, hs, hper⟩ := this
        exact ⟨ho, hd, by rw [sumEvents_append]; simpa [strikeoutEvent]
          using hs, hper⟩
  | error d =>
      exact ⟨(logErrorLive d l).1,
        by simp [applyAction, logError, hl, appendEvent],
        by simpa [applyAction, logError, hl, appendEvent]
          using scoreInv_logErrorLive d hsi⟩
  | caughtOut d =>
      exact ⟨(logCaughtOutLive d l).1,
        by simp [applyAction, logCaughtOut, hl, appendEvent],
        by simpa [applyAction, logCaughtOut, hl, appendEvent]
          using scoreInv_logCaughtOutLive d hsi⟩
  | steal r d success =>
      exact ⟨(logStealLive r d success l).1,
        by simp [applyAction, logSteal, hl, appendEvent],
        by simpa [applyAction, logSteal, hl, appendEvent]
          using scoreInv_logStealLive r d success hsi⟩

/-- The invariant survives any action sequence. -/
theorem storeInv_applyActions (acts : List Action) (s : GameStore)
    (h : StoreInv s) : StoreInv (applyActions s acts) := by
  induction acts generalizing s with
  | nil => simpa [applyActions] using h
  | cons a rest ih =>
      have := storeInv_applyAction s a h
      simpa [applyActions] using ih (applyAction s a) this

/-- Every entry created by `createScoreboardState` is the zero entry. -/
theorem createScoreboardState_entries :
    ∀ (ids : List String) (acc : ScoreboardState),
      (∀ p ∈ acc, p.2 =
        ({ runs := 0, hits := 0, errors := 0, inningRuns := [] } : TeamScore)) →
      ∀ p ∈ ids.foldl (fun acc teamId =>
          recUpdate acc teamId
            { runs := 0, hits := 0, errors := 0, inningRuns := [] }) acc,
        p.2 = ({ runs := 0, hits := 0, errors := 0, inningRuns := [] } : TeamScore) := by
  intro ids
  induction ids with
  | nil =>
      intro acc hacc p hp
      exact hacc p hp
  | cons i rest ih =>
      intro acc hacc p hp
      refine ih _ ?_ p (by simpa [List.foldl] using hp)
      intro q hq
      rcases mem_recUpdate hq with h1 | h1
      · rw [h1]
      · exact hacc q h1

/-- A freshly started game satisfies the invariant. -/
theorem storeInv_startGameWith (gid teamAId teamBId : String)
    (playersA playersB : List String) :
    StoreInv (startGameWith gid teamAId teamBId playersA playersB) := by
  have hz : ∀ p ∈ createScoreboardState [teamAId, teamBId], p.2 =
      ({ runs := 0, hits := 0, errors := 0, inningRuns := [] } : TeamScore) :=
    createScoreboardState_entries [teamAId, teamBId] [] (by simp)
  refine ⟨_, rfl, ?_, ?_, ?_, ?_⟩
  · simp only [initialLiveState, createScoreboardState, List.foldl]
    exact mem_keys_recUpdate _ (self_mem_keys_recUpdate _ _ _)
  · simp only [initialLiveState, createScoreboardState, List.foldl]
    exact self_mem_keys_recUpdate _ _ _
  · simp only [initialLiveState, startGameWith, sumRuns, sumEvents,
      List.map_nil, List.sum_nil]
    apply List.sum_eq_zero
    intro x hx
    obtain ⟨p, hp, hpx⟩ := List.mem_map.mp hx
    rw [← hpx, hz p hp]
  · simp only [initialLiveState, startGameWith]
    intro p hp
    rw [hz p hp]
    simp [sumInningRuns]

/-! ## Claim theorems -/

/-- C6: whenever outs reach 3 in any reducer, `rotateSides` runs and: flips
the half (top↔bottom), increments the inning only when flipping from bottom
to top, resets outs and strikes to zero, empties all three bases, swaps
offense and defense team ids, and sets `plannedInnings` to
`max(plannedInnings, newInning)`. -/
theorem rotateSides_spec :
    (∀ l : LiveGameState,
      (rotateSides l).half = toggleHalf l.half ∧
      toggleHalf .top = .bottom ∧ toggleHalf .bottom = .top ∧
      (rotateSides l).inning =
        (if l.half = .bottom then l.inning + 1 else l.inning) ∧
      (rotateSides l).outs = 0 ∧
      (rotateSides l).strikes = 0 ∧
      (rotateSides l).bases = EMPTY_BASES ∧
      (rotateSides l).offenseTeamId = l.defenseTeamId ∧
      (rotateSides l).defenseTeamId = l.offenseTeamId ∧
      (rotateSides l).plannedInnings =
        max l.plannedInnings (rotateSides l).inning) ∧
    (∀ (s : GameStore) (l : LiveGameState), s.live = some l →
      l.strikes = 2 → l.outs = 2 →
      (logStrike s).live = some (rotateSides (strikeoutMid l))) ∧
    (∀ (s : GameStore) (l : LiveGameState) (d : String), s.live = some l →
      l.strikes = 2 → l.outs = 2 →
      (logError d s).live = some (rotateSides (errorOutMid l))) ∧
    (∀ (s : GameStore) (l : LiveGameState) (d : String), s.live = some l →
      l.outs = 2 →
      (logCaughtOut d s).live = some (rotateSides (caughtOutMid l))) ∧
    (∀ (s : GameStore) (l : LiveGameState) (r d : String), s.live = some l →
      l.outs = 2 →
      (logSteal r d false s).live = some (rotateSides (stealFailMid l r))) := by
  refine ⟨?_, ?_, ?_, ?_, ?_⟩
  · intro l
    refine ⟨rfl, rfl, rfl, rfl, rfl, rfl, rfl, rfl, rfl, rfl⟩
  · intro s l h hs ho
    simp only [logStrike, h, logStrikeLive, hs, strikeoutLive, strikeoutMid,
      appendEvent]
    norm_num [ho]
  · intro s l d h hs ho
    simp only [logError, h, logErrorLive, hs, errorOutMid, appendEvent]
    norm_num [ho]
  · intro s l d h ho
    simp only [logCaughtOut, h, logCaughtOutLive, caughtOutMid, appendEvent]
    norm_num [ho]
  · intro s l r d h ho
    simp only [logSteal, h, logStealLive, stealFailMid, appendEvent]
    norm_num [ho]

/-- C6 witness: the rotation conjuncts at the concrete two-out stores. -/
theorem rotateSides_spec_witness :
    (logStrike lateStore).live =
      some (rotateSides (strikeoutMid { sampleStore.initial with
        strikes := 2, outs := 2 })) ∧
    (logCaughtOut "cal" twoOutStore).live =
      some (rotateSides (caughtOutMid { sampleStore.initial with outs := 2 })) :=
  ⟨rotateSides_spec.2.1 lateStore _ rfl rfl rfl,
   rotateSides_spec.2.2.2.1 twoOutStore _ "cal" rfl rfl⟩

/-- C5: for every live state, the strike reducer with strikes < 2
increments strikes only; with strikes == 2 it converts to a strikeout:
exactly one out is added, strikes reset to 0, the batting cursor advances
by one modulo lineup length, a strikeout event is recorded, and if outs
thereby reach 3 rotation is triggered exactly once. -/
theorem logStrike_spec :
    ∀ (s : GameStore) (l : LiveGameState), s.live = some l →
      ((l.strikes < 2 →
          (logStrike s).live = some { l with strikes := l.strikes + 1 } ∧
          (logStrike s).events = s.events) ∧
       (l.strikes = 2 →
          ∃ e, (logStrike s).events = s.events ++ [e] ∧
            e.eventType = .strikeout ∧
            (logStrike s).live = some
              (if l.outs + 1 ≥ 3 then rotateSides (strikeoutMid l)
               else strikeoutMid l) ∧
            (strikeoutMid l).outs = l.outs + 1 ∧
            (strikeoutMid l).strikes = 0 ∧
            recGetD (strikeoutMid l).lineups l.offenseTeamId emptyLineupState =
              { recGetD l.lineups l.offenseTeamId emptyLineupState with
                currentIndex :=
                  ((recGetD l.lineups l.offenseTeamId emptyLineupState).currentIndex
                      + 1) %
                    (recGetD l.lineups l.offenseTeamId
                      emptyLineupState).lineup.length })) := by
  intro s l h
  constructor
  · intro hlt
    simp [logStrike, h, logStrikeLive, hlt]
  · intro h2
    refine ⟨strikeoutEvent l (getCurrentBatter
      (recGetD l.lineups l.offenseTeamId emptyLineupState)).playerId,
      ?_, rfl, ?_, rfl, rfl, ?_⟩
    · simp [logStrike, h, logStrikeLive, h2, appendEvent]
    · simp only [logStrike, h, logStrikeLive, h2]
      norm_num [strikeoutLive, strikeoutMid, appendEvent]
    · simp [strikeoutMid, recGetD, recGet?_recUpdate_self, moveToNextBatter]

/-- C5 witness: at the two-strike store the strikeout fires (no rotation at
zero outs), and at the fresh store a strike only bumps the count. -/
theorem logStrike_spec_witness :
    ((logStrike sampleStore).live =
        some { sampleStore.initial with strikes := 1 } ∧
      (logStrike sampleStore).events = sampleStore.events) ∧
    ∃ e, (logStrike twoStrikeStore).events = twoStrikeStore.events ++ [e] ∧
      e.eventType = .strikeout ∧
      (logStrike twoStrikeStore).live = some
        (if (0 : Nat) + 1 ≥ 3 then
          rotateSides (strikeoutMid { sampleStore.initial with strikes := 2 })
         else strikeoutMid { sampleStore.initial with strikes := 2 }) ∧
      (strikeoutMid { sampleStore.initial with strikes := 2 }).outs = 0 + 1 ∧
      (strikeoutMid { sampleStore.initial with strikes := 2 }).strikes = 0 ∧
      recGetD (strikeoutMid { sampleStore.initial with strikes := 2 }).lineups
          sampleStore.initial.offenseTeamId emptyLineupState =
        { recGetD sampleStore.initial.lineups sampleStore.initial.offenseTeamId
            emptyLineupState with
          currentIndex :=
            ((recGetD sampleStore.initial.lineups
                sampleStore.initial.offenseTeamId
                emptyLineupState).currentIndex + 1) %
              (recGetD sampleStore.initial.lineups
                sampleStore.initial.offenseTeamId
                emptyLineupState).lineup.length } :=
  ⟨(logStrike_spec sampleStore sampleStore.initial rfl).1 (by decide),
   (logStrike_spec twoStrikeStore { sampleStore.initial with strikes := 2 }
      rfl).2 rfl⟩

/-- C2 counterexample: a strike applied below two strikes mutates the live
state (so the action was applied) but appends no event, refuting "every
scoring action appends exactly one GameEvent … applyStrike produces and
returns an appended event on every call, including when strikes < 2". -/
theorem logStrike_no_event_counterexample :
    (logStrike sampleStore).events = sampleStore.events ∧
    (logStrike sampleStore).live ≠ sampleStore.live := by decide

/-- C2 (amended): every hit, error, caught-out and steal invocation, and a
strike invocation at two strikes, appends exactly one event; a strike
below two strikes appends none and only increments the strike count. -/
theorem applyAction_appendsEvent :
    ∀ (s : GameStore) (l : LiveGameState) (a : Action), s.live = some l →
      (producesEvent a l = true →
        ∃ e, (applyAction s a).events = s.events ++ [e]) ∧
      (producesEvent a l = false →
        (applyAction s a).events = s.events ∧
        (applyAction s a).live = some { l with strikes := l.strikes + 1 }) := by
  intro s l a h
  cases a with
  | hit t =>
      refine ⟨fun _ => ⟨(logHitLive t l).2,
        by simp [applyAction, logHit, h, appendEvent]⟩, fun hf => ?_⟩
      simp [producesEvent] at hf
  | strike =>
      constructor
      · intro hp
        simp [producesEvent] at hp
        exact ⟨strikeoutEvent l (getCurrentBatter
            (recGetD l.lineups l.offenseTeamId emptyLineupState)).playerId,
          by simp [applyAction, logStrike, h, logStrikeLive,
            Nat.not_lt.mpr hp, appendEvent]⟩
      · intro hp
        simp [producesEvent] at hp
        simp [applyAction, logStrike, h, logStrikeLive, hp]
  | error d =>
      refine ⟨fun _ => ⟨(logErrorLive d l).2,
        by simp [applyAction, logError, h, appendEvent]⟩, fun hf => ?_⟩
      simp [producesEvent] at hf
  | caughtOut d =>
      refine ⟨fun _ => ⟨(logCaughtOutLive d l).2,
        by simp [applyAction, logCaughtOut, h, appendEvent]⟩, fun hf => ?_⟩
      simp [producesEvent] at hf
  | steal r d success =>
      refine ⟨fun _ => ⟨(logStealLive r d success l).2,
        by simp [applyAction, logSteal, h, appendEvent]⟩, fun hf => ?_⟩
      simp [producesEvent] at hf

/-- C2 witness: a single appends one event to the fresh store; a strike at
zero strikes appends none. -/
theorem applyAction_appendsEvent_witness :
    (∃ e, (applyAction sampleStore (.hit .single)).events =
      sampleStore.events ++ [e]) ∧
    ((applyAction sampleStore .strike).events = sampleStore.events ∧
      (applyAction sampleStore .strike).live =
        some { sampleStore.initial with
          strikes := sampleStore.initial.strikes + 1 }) :=
  ⟨(applyAction_appendsEvent sampleStore sampleStore.initial
      (.hit .single) rfl).1 rfl,
   (applyAction_appendsEvent sampleStore sampleStore.initial
      .strike rfl).2 rfl⟩

/-- C3 counterexample: a steal attempted from the fresh store (all bases
empty) still appends an event to the log, refuting "the engine rejects it…
no event is appended to the Event Log". -/
theorem logSteal_emptyBases_counterexample :
    sampleStore.live.map (fun l => l.bases) = some EMPTY_BASES ∧
    sampleStore.events.length = 0 ∧
    (logSteal "runner-x" "cal" true sampleStore).events.length = 1 := by
  decide

/-- C3 (amended): a steal attempted when no base is occupied is not
rejected: the reducer has no guard (the no-runner guard lives in the UI's
`canSteal`).  On success the live state is unchanged but a
`steal_success` event with zero runs is still appended; on failure an out
is added (rotating at three) and a `steal_fail` event is appended. -/
theorem logSteal_emptyBases :
    ∀ (s : GameStore) (l : LiveGameState) (r d : String), s.live = some l →
      l.bases = EMPTY_BASES → l.outs < 3 →
      ((logSteal r d true s).live = s.live ∧
        (∃ e, (logSteal r d true s).events = s.events ++ [e] ∧
          e.eventType = .steal_success ∧ e.runsScored = 0)) ∧
      ((logSteal r d false s).live =
          some (if l.outs + 1 ≥ 3 then
              rotateSides { l with outs := l.outs + 1 }
            else { l with outs := l.outs + 1 }) ∧
        (∃ e, (logSteal r d false s).events = s.events ++ [e] ∧
          e.eventType = .steal_fail ∧ e.runsScored = 0)) := by
  intro s l r d h hb ho
  have hfind : advancePriority.find?
      (fun base => (getBase l.bases base).isSome) = none := by
    rw [hb]; decide
  have hloc : locateRunner l.bases r = none := by
    rw [hb]; simp [locateRunner, EMPTY_BASES, baseNames, getBase]
  refine ⟨⟨?_, ?_⟩, ⟨?_, ?_⟩⟩
  · simp only [logSteal, h, logStealLive, resolveSteal, hfind, appendEvent]
    simp [Nat.not_le.mpr ho, ← hb, h]
  · refine ⟨(logStealLive r d true l).2,
      by simp [logSteal, h, appendEvent], ?_, ?_⟩
    · simp [logSteal, h, logStealLive, stealEvent]
    · simp [logSteal, h, logStealLive, stealEvent, resolveSteal, hfind]
  · simp only [logSteal, h, logStealLive, resolveSteal, hloc, appendEvent]
    simp [← hb]
  · refine ⟨(logStealLive r d false l).2,
      by simp [logSteal, h, appendEvent], ?_, ?_⟩
    · simp [logSteal, h, logStealLive, stealEvent]
    · simp [logSteal, h, logStealLive, stealEvent]

/-- C3 witness: the amended behavior at the fresh store. -/
theorem logSteal_emptyBases_witness :
    ((logSteal "rx" "cal" true sampleStore).live = sampleStore.live ∧
      (∃ e, (logSteal "rx" "cal" true sampleStore).events =
        sampleStore.events ++ [e] ∧
        e.eventType = .steal_success ∧ e.runsScored = 0)) ∧
    ((logSteal "rx" "cal" false sampleStore).live =
        some (if (0 : Nat) + 1 ≥ 3 then
            rotateSides { sampleStore.initial with outs := 0 + 1 }
          else { sampleStore.initial with outs := 0 + 1 }) ∧
      (∃ e, (logSteal "rx" "cal" false sampleStore).events =
        sampleStore.events ++ [e] ∧
        e.eventType = .steal_fail ∧ e.runsScored = 0)) := by
  have := logSteal_emptyBases sampleStore sampleStore.initial "rx" "cal"
    rfl rfl (by decide)
  exact this

/-- C1 counterexample: from a fresh game a strike below two strikes
mutates the live state without logging an event, so the immediately
following `undoLast` (a no-op on the empty log) does not restore the
pre-apply LivePlayState — refuting "for every applied scoring action,
invoking undoLast immediately afterwards restores the LivePlayState … to
their values before the action". -/
theorem undoLast_inverse_counterexample :
    (undoLastAction (applyAction sampleStore .strike)).live ≠
      sampleStore.live := by decide

/-- C1 (amended, spec-modelled undo): for every event-producing scoring
action (every action except a strike below two strikes) applied to a store
whose live state is consistent with its log (equal to the replay of the
log from the initial state), `undoLast` immediately afterwards restores
the LivePlayState and the Event Log exactly; `undoLast` on an empty event
log is a no-op.  Bare strikes append no event, so they are invisible to
the replay-based undo. -/
theorem undoLast_inverse :
    (∀ (s : GameStore) (a : Action),
      s.live = some (replay s.initial s.events) →
      producesEvent a (replay s.initial s.events) = true →
      (undoLastAction (applyAction s a)).live = s.live ∧
      (undoLastAction (applyAction s a)).events = s.events) ∧
    (∀ s : GameStore, s.events = [] → undoLastAction s = s) := by
  constructor
  · intro s a h hp
    have key : ∀ (l' : LiveGameState) (e : GameEvent),
        applyAction s a = appendEvent { s with live := some l' } e →
        (undoLastAction (applyAction s a)).live = s.live ∧
        (undoLastAction (applyAction s a)).events = s.events := by
      intro l' e happ
      rw [happ]
      constructor
      · simp [appendEvent, undoLastAction, List.dropLast_concat, replay, h]
      · simp [appendEvent, undoLastAction, List.dropLast_concat]
    cases a with
    | hit t =>
        exact key (logHitLive t (replay s.initial s.events)).1
          (logHitLive t (replay s.initial s.events)).2
          (by simp [applyAction, logHit, h])
    | strike =>
        simp only [producesEvent, Bool.not_eq_true', decide_eq_false_iff_not] at hp
        exact key (strikeoutLive (replay s.initial s.events))
          (strikeoutEvent (replay s.initial s.events)
            (getCurrentBatter (recGetD (replay s.initial s.events).lineups
              (replay s.initial s.events).offenseTeamId
              emptyLineupState)).playerId)
          (by simp [applyAction, logStrike, h, logStrikeLive, hp])
    | error d =>
        exact key (logErrorLive d (replay s.initial s.events)).1
          (logErrorLive d (replay s.initial s.events)).2
          (by simp [applyAction, logError, h])
    | caughtOut d =>
        exact key (logCaughtOutLive d (replay s.initial s.events)).1
          (logCaughtOutLive d (replay s.initial s.events)).2
          (by simp [applyAction, logCaughtOut, h])
    | steal r d success =>
        exact key (logStealLive r d success (replay s.initial s.events)).1
          (logStealLive r d success (replay s.initial s.events)).2
          (by simp [applyAction, logSteal, h])
  · intro s he
    simp [undoLastAction, he]

/-- C1 witness: a double applied to the fresh (log-consistent) store is
exactly undone, and undo on the fresh store's empty log is a no-op. -/
theorem undoLast_inverse_witness :
    ((undoLastAction (applyAction sampleStore (.hit .double))).live =
        sampleStore.live ∧
      (undoLastAction (applyAction sampleStore (.hit .double))).events =
        sampleStore.events) ∧
    undoLastAction sampleStore = sampleStore :=
  ⟨undoLast_inverse.1 sampleStore (.hit .double) rfl rfl,
   undoLast_inverse.2 sampleStore rfl⟩

/-- C4: for every base state and every `basesAdvanced` in 1..4,
`advanceForHit` moves each existing runner exactly n slots (slot `j` of
the result holds the runner that started on slot `j - n`, the batter when
`j = n`, and nobody otherwise — so each scoring runner's destination index
exceeds third); `runsScored` counts exactly the runners whose destination
passes third plus the batter on a home run, and `rbi` equals it; if
`n = 4` the batter also scores, leaving the bases empty; for inputs
satisfying the base-state invariant (no id on two bases, batter not on
base) the result has no double occupancy; and the function is pure, so
identical inputs yield identical outputs.  (The processing order
third→second→first is observationally irrelevant because the three
destinations are distinct; the slot-wise characterization below pins the
full result.) -/
theorem advanceForHit_spec :
    ∀ (bases : BaseState) (n : Nat) (batterId : String),
      1 ≤ n → n ≤ 4 →
      (advanceRunnersForHit bases n batterId).before = bases ∧
      (∀ j, 1 ≤ j → j ≤ 3 →
        baseAt (advanceRunnersForHit bases n batterId).after j =
          if j = n then some batterId
          else if n < j then baseAt bases (j - n)
          else none) ∧
      (advanceRunnersForHit bases n batterId).runsScored =
        scoringRunners bases n + (if n = 4 then 1 else 0) ∧
      (advanceRunnersForHit bases n batterId).rbi =
        (advanceRunnersForHit bases n batterId).runsScored ∧
      (n = 4 → (advanceRunnersForHit bases n batterId).after = EMPTY_BASES) ∧
      (NoDouble bases → batterFree bases batterId →
        NoDouble (advanceRunnersForHit bases n batterId).after) ∧
      advanceRunnersForHit bases n batterId =
        advanceRunnersForHit bases n batterId := by
  intro bases n batterId h1 h4
  obtain ⟨f, s, t⟩ := bases
  refine ⟨rfl, ?_, ?_, rfl, ?_, ?_, rfl⟩
  · intro j hj1 hj3
    interval_cases n <;> interval_cases j <;>
      rcases f with _ | f <;> rcases s with _ | s <;> rcases t with _ | t <;> rfl
  · interval_cases n <;>
      rcases f with _ | f <;> rcases s with _ | s <;> rcases t with _ | t <;> rfl
  · intro hn4
    subst hn4
    rcases f with _ | f <;> rcases s with _ | s <;> rcases t with _ | t <;> rfl
  · intro hnd hbf
    obtain ⟨hb1, hb2, hb3⟩ := hbf
    interval_cases n <;>
      rcases f with _ | f <;> rcases s with _ | s <;> rcases t with _ | t <;>
        simp_all [NoDouble, advanceRunnersForHit, advanceStep, baseNames,
          EMPTY_BASES, setBase, getBase, moveRunner, baseIndex, indexToBase] <;>
        tauto

/-- C4 witness (the spec's concrete scenario): runners on first and third,
double — the batter lands on second, the first-base runner reaches third,
and one runner (from third) scores. -/
theorem advanceForHit_spec_witness :
    baseAt (advanceRunnersForHit
      ⟨some "ann", none, some "ben"⟩ 2 "cal").after 2 = some "cal" ∧
    baseAt (advanceRunnersForHit
      ⟨some "ann", none, some "ben"⟩ 2 "cal").after 3 = some "ann" ∧
    (advanceRunnersForHit ⟨some "ann", none, some "ben"⟩ 2 "cal").runsScored =
      scoringRunners ⟨some "ann", none, some "ben"⟩ 2 +
        (if 2 = 4 then 1 else 0) := by
  have h := advanceForHit_spec ⟨some "ann", none, some "ben"⟩ 2 "cal"
    (by decide) (by decide)
  refine ⟨?_, ?_, h.2.2.1⟩
  · simpa using h.2.1 2 (by decide) (by decide)
  · simpa using h.2.1 3 (by decide) (by decide)

/-- C7: after any sequence of scoring actions applied from a freshly
started game, the sum of all teams' runs in the scoreboard equals the sum
of `runsScored` over all events in the log, and for each team the sum of
its per-inning run entries equals its runs total. -/
theorem runs_conservation :
    ∀ (gid teamAId teamBId : String) (playersA playersB : List String)
      (acts : List Action) (l : LiveGameState),
      (applyActions (startGameWith gid teamAId teamBId playersA playersB)
        acts).live = some l →
      sumRuns l.scoreboard =
        sumEvents (applyActions
          (startGameWith gid teamAId teamBId playersA playersB) acts).events ∧
      ∀ p ∈ l.scoreboard, sumInningRuns p.2.inningRuns = p.2.runs := by
  intro gid teamAId teamBId playersA playersB acts l hl
  have h := storeInv_applyActions acts _
    (storeInv_startGameWith gid teamAId teamBId playersA playersB)
  obtain ⟨l', hl', hper⟩ := h
  rw [hl] at hl'
  injection hl' with hll
  subst hll
  exact ⟨hper.2.2.1, hper.2.2.2⟩

/-- C7 witness: the accounting equalities hold after a concrete mixed
script of eleven actions (hits, strikes, a strikeout, caught-out, error,
failed and successful steals, including a rotation). -/
theorem runs_conservation_witness :
    sumRuns sampleActsLive.scoreboard =
      sumEvents (applyActions sampleStore sampleActs).events ∧
    ∀ p ∈ sampleActsLive.scoreboard,
      sumInningRuns p.2.inningRuns = p.2.runs :=
  runs_conservation "game-1" "team-a" "team-b" ["ann", "ben"] ["cal", "dee"]
    sampleActs sampleActsLive rfl

/-- Every entry of the game lookup comes from the game list, keyed by its
id. -/
theorem gameLookup_entries :
    ∀ (games : List Game) (acc : List (String × Game)),
      ∀ p ∈ games.foldl (fun acc g => recUpdate acc g.id g) acc,
        p ∈ acc ∨ (p.2 ∈ games ∧ p.1 = p.2.id) := by
  intro games
  induction games with
  | nil => intro acc p hp; exact Or.inl hp
  | cons g rest ih =>
      intro acc p hp
      rcases ih (recUpdate acc g.id g) p (by simpa [List.foldl] using hp)
        with h1 | h1
      · rcases mem_recUpdate h1 with h2 | h2
        · exact Or.inr ⟨by simp [h2], by simp [h2]⟩
        · exact Or.inl h2
      · exact Or.inr ⟨List.mem_cons_of_mem _ h1.1, h1.2⟩

/-- A successful lookup in the game map returns a game from the list with
the looked-up id. -/
theorem gameLookup_sound {games : List Game} {k : String} {g : Game}
    (h : recGet? (gameLookup games) k = some g) :
    g ∈ games ∧ g.id = k := by
  have hmem := recGet?_mem h
  rcases gameLookup_entries games [] (k, g) hmem with h1 | h1
  · simp at h1
  · exact ⟨h1.1, h1.2.symm⟩

/-- A mapped merge sort of a list is determined by the mapped list when
the result has at most one element. -/
theorem mergeSort_map_eq_of_short {α β : Type} (l : List α)
    (le : α → α → Bool) (f : α → β) (t : List β)
    (h : l.map f = t) (hlen : t.length ≤ 1) :
    (l.mergeSort le).map f = t := by
  have hp : List.Perm ((l.mergeSort le).map f) t := by
    rw [← h]
    exact (List.mergeSort_perm l le).map f
  match t, hlen with
  | [], _ => exact List.Perm.eq_nil hp
  | [a], _ => exact List.perm_singleton.mp hp

/-- C8 counterexample: under the `overall` scope an event whose `gameId`
("ghost") matches no game in the (empty) game list is *not* skipped — it
creates a leaderboard row crediting its batter with an at-bat, a hit and
an RBI, refuting "under every scope including the overall scope". -/
theorem aggregate_overall_counterexample :
    (buildIndividualLeaderboard [ghostEvent] [] [] .overall ⟨none, none⟩
        (fun st => st.slugging) 2026).map
      (fun r => (r.playerId, r.stats.atBats, r.stats.hits, r.stats.rbi)) =
      [("p1", 1, 1, 1)] := by
  unfold buildIndividualLeaderboard
  exact mergeSort_map_eq_of_short _ _ _ _ (by decide) (by decide)

/-- C8 (amended): under the `year` and `league` scopes, every event whose
`gameId` matches no game in the supplied game list is skipped by the scope
filter before aggregation (every surviving event's game is in the list);
the aggregation itself is total, so nothing aborts.  Under the `overall`
scope the game list is not consulted and such events do contribute. -/
theorem filterEventsByScope_skips :
    (∀ (events : List GameEvent) (games : List Game) (scope : StatScope)
       (opts : ScopeOpts) (nowYear : Nat), scope ≠ .overall →
       ∀ e ∈ filterEventsByScope events games scope opts nowYear,
         ∃ g ∈ games, g.id = e.gameId) ∧
    (∀ (events : List GameEvent) (games : List Game) (opts : ScopeOpts)
       (nowYear : Nat),
       filterEventsByScope events games .overall opts nowYear = events) := by
  constructor
  · intro events games scope opts nowYear hscope e he
    cases scope with
    | overall => exact absurd rfl hscope
    | year =>
        simp only [filterEventsByScope, List.mem_filter] at he
        rcases hg : recGet? (gameLookup games) e.gameId with _ | g
        · rw [hg] at he
          simp at he
        · obtain ⟨hmem, hid⟩ := gameLookup_sound hg
          exact ⟨g, hmem, hid⟩
    | league =>
        simp only [filterEventsByScope, List.mem_filter] at he
        rcases hg : recGet? (gameLookup games) e.gameId with _ | g
        · rw [hg] at he
          simp at he
        · obtain ⟨hmem, hid⟩ := gameLookup_sound hg
          exact ⟨g, hmem, hid⟩
  · intro events games opts nowYear
    rfl

/-- C8 witness: with the game list containing `sampleGame`, the year-scope
filter keeps only events whose game is found, and the overall scope is the
identity on a concrete event list. -/
theorem filterEventsByScope_skips_witness :
    (∀ e ∈ filterEventsByScope [sampleGameEvent, ghostEvent] [sampleGame]
        .year ⟨some 2026, none⟩ 2026,
      ∃ g ∈ [sampleGame], g.id = e.gameId) ∧
    filterEventsByScope [sampleGameEvent, ghostEvent] [sampleGame]
        .overall ⟨none, none⟩ 2026 = [sampleGameEvent, ghostEvent] :=
  ⟨filterEventsByScope_skips.1 [sampleGameEvent, ghostEvent] [sampleGame]
      .year ⟨some 2026, none⟩ 2026 (by decide),
   filterEventsByScope_skips.2 [sampleGameEvent, ghostEvent] [sampleGame]
      ⟨none, none⟩ 2026⟩

/-- `ensurePlayerTotals` preserves the per-entry totals bounds (the fresh
entry is all zeros). -/
theorem totalsBounded_ensure {m : List (String × Totals)} {pid : String}
    (h : ∀ p ∈ m, TotalsBounded p.2) :
    ∀ p ∈ ensurePlayerTotals m pid, TotalsBounded p.2 := by
  intro p hp
  unfold ensurePlayerTotals at hp
  cases hg : recGet? m pid with
  | some v =>
      rw [hg] at hp
      exact h p hp
  | none =>
      rw [hg] at hp
      rcases mem_recUpdate hp with h1 | h1
      · rw [h1]
        simp [TotalsBounded, zeroTotals]
      · exact h p h1

/-- `bumpTotals` with a bounds-preserving mutation preserves the per-entry
totals bounds. -/
theorem totalsBounded_bump {m : List (String × Totals)} {pid : String}
    {f : Totals → Totals}
    (hf : ∀ t, TotalsBounded t → TotalsBounded (f t))
    (h : ∀ p ∈ m, TotalsBounded p.2) :
    ∀ p ∈ bumpTotals m pid f, TotalsBounded p.2 := by
  intro p hp
  unfold bumpTotals at hp
  rcases mem_recUpdate hp with h1 | h1
  · rw [h1]
    apply hf
    cases hg : recGet? (ensurePlayerTotals m pid) pid with
    | some v =>
        have := totalsBounded_ensure h (pid, v) (recGet?_mem hg)
        simpa [recGetD, hg] using this
    | none => simp [recGetD, hg, TotalsBounded, zeroTotals]
  · exact totalsBounded_ensure h p h1

/-- One aggregation step preserves the per-entry totals bounds: hits and
at-bats move together, and total bases grow by at most 4 per at-bat. -/
theorem totalsBounded_aggStep {acc : AggAcc} {e : GameEvent}
    (h : ∀ p ∈ acc.totals, TotalsBounded p.2) :
    ∀ p ∈ (aggStep acc e).totals, TotalsBounded p.2 := by
  have hbat : ∀ p ∈ ensurePlayerTotals acc.totals e.batterId,
      TotalsBounded p.2 := totalsBounded_ensure h
  cases he : e.eventType with
  | single =>
      simp [aggStep, he]
      intro a b hab
      refine totalsBounded_bump (fun t ht => ?_) hbat (a, b) hab
      simp [TotalsBounded, eventBaseValue] at ht ⊢
      omega
  | double =>
      simp [aggStep, he]
      intro a b hab
      refine totalsBounded_bump (fun t ht => ?_) hbat (a, b) hab
      simp [TotalsBounded, eventBaseValue] at ht ⊢
      omega
  | triple =>
      simp [aggStep, he]
      intro a b hab
      refine totalsBounded_bump (fun t ht => ?_) hbat (a, b) hab
      simp [TotalsBounded, eventBaseValue] at ht ⊢
      omega
  | homerun =>
      simp [aggStep, he]
      intro a b hab
      refine totalsBounded_bump (fun t ht => ?_) hbat (a, b) hab
      simp [TotalsBounded, eventBaseValue] at ht ⊢
      omega
  | strikeout =>
      simp [aggStep, he]
      intro a b hab
      refine totalsBounded_bump (fun t ht => ?_) hbat (a, b) hab
      simp [TotalsBounded] at ht ⊢
      omega
  | caught_out =>
      cases hdd : e.defenderId with
      | none =>
          simp [aggStep, he, hdd]
          intro a b hab
          refine totalsBounded_bump (fun t ht => ?_) hbat (a, b) hab
          simp [TotalsBounded] at ht ⊢
          omega
      | some dd =>
          simp [aggStep, he, hdd]
          intro a b hab
          refine totalsBounded_bump (fun t ht => ?_)
            (totalsBounded_bump (fun t2 ht2 => ?_) hbat) (a, b) hab
          · simpa [TotalsBounded] using ht
          · simp [TotalsBounded] at ht2 ⊢
            omega
  | error =>
      cases hdd : e.defenderId with
      | none =>
          simp [aggStep, he, hdd]
          intro a b hab
          exact hbat (a, b) hab
      | some dd =>
          simp [aggStep, he, hdd]
          intro a b hab
          refine totalsBounded_bump (fun t ht => ?_) hbat (a, b) hab
          simpa [TotalsBounded] using ht
  | steal_success =>
      cases hrr : e.runnerId with
      | none =>
          cases hdd : e.defenderId with
          | none =>
              simp [aggStep, he, hrr, hdd]
              intro a b hab
              exact hbat (a, b) hab
          | some dd =>
              simp [aggStep, he, hrr, hdd]
              intro a b hab
              refine totalsBounded_bump (fun t ht => ?_) hbat (a, b) hab
              simpa [TotalsBounded] using ht
      | some rr =>
          cases hdd : e.defenderId with
          | none =>
              simp [aggStep, he, hrr, hdd]
              intro a b hab
              refine totalsBounded_bump (fun t ht => ?_) hbat (a, b) hab
              simpa [TotalsBounded] using ht
          | some dd =>
              simp [aggStep, he, hrr, hdd]
              intro a b hab
              refine totalsBounded_bump (fun t ht => ?_)
                (totalsBounded_bump (fun t2 ht2 => ?_) hbat) (a, b) hab
              · simpa [TotalsBounded] using ht
              · simpa [TotalsBounded] using ht2
  | steal_fail =>
      cases hrr : e.runnerId with
      | none =>
          cases hdd : e.defenderId with
          | none =>
              simp [aggStep, he, hrr, hdd]
              intro a b hab
              exact hbat (a, b) hab
          | some dd =>
              simp [aggStep, he, hrr, hdd]
              intro a b hab
              refine totalsBounded_bump (fun t ht => ?_) hbat (a, b) hab
              simpa [TotalsBounded] using ht
      | some rr =>
          cases hdd : e.defenderId with
          | none =>
              simp [aggStep, he, hrr, hdd]
              intro a b hab
              refine totalsBounded_bump (fun t ht => ?_) hbat (a, b) hab
              simpa [TotalsBounded] using ht
          | some dd =>
              simp [aggStep, he, hrr, hdd]
              intro a b hab
              refine totalsBounded_bump (fun t ht => ?_)
                (totalsBounded_bump (fun t2 ht2 => ?_) hbat) (a, b) hab
              · simpa [TotalsBounded] using ht
              · simpa [TotalsBounded] using ht2
  | strike =>
      simp [aggStep, he]
      intro a b hab
      exact hbat (a, b) hab

/-- Folding any event list preserves the per-entry totals bounds. -/
theorem totalsBounded_fold (events : List GameEvent) :
    ∀ (acc : AggAcc), (∀ p ∈ acc.totals, TotalsBounded p.2) →
      ∀ p ∈ (events.foldl aggStep acc).totals, TotalsBounded p.2 := by
  induction events with
  | nil =>
      intro acc h
      simpa using h
  | cons e rest ih =>
      intro acc h
      simpa [List.foldl] using ih _ (totalsBounded_aggStep h)

/-- C9: in every aggregator row, battingAverage is hits over at-bats and
slugging is total bases over at-bats (0 when at-bats is 0), and for all
inputs — not only engine-produced ones — battingAverage lies in [0,1] and
slugging in [0,4]. -/
theorem leaderboard_rates :
    (∀ (players : List (String × PlayerIdentity))
       (participation : List (String × List String))
       (entry : String × Totals),
       (mkRow players participation entry).stats.atBats = entry.2.atBats ∧
       (mkRow players participation entry).stats.hits = entry.2.hits ∧
       (mkRow players participation entry).stats.battingAverage =
         (if entry.2.atBats = 0 then 0
          else (entry.2.hits : ℚ) / entry.2.atBats) ∧
       (mkRow players participation entry).stats.slugging =
         (if entry.2.atBats = 0 then 0
          else (entry.2.totalBases : ℚ) / entry.2.atBats)) ∧
    (∀ (events : List GameEvent) (games : List Game)
       (players : List PlayerIdentity) (scope : StatScope)
       (opts : ScopeOpts) (sortVal : IndividualStats → ℚ) (nowYear : Nat),
       ∀ r ∈ buildIndividualLeaderboard events games players scope opts
         sortVal nowYear,
       0 ≤ r.stats.battingAverage ∧ r.stats.battingAverage ≤ 1 ∧
       0 ≤ r.stats.slugging ∧ r.stats.slugging ≤ 4) := by
  constructor
  · intro players participation entry
    by_cases h : entry.2.atBats = 0 <;> simp [mkRow, h]
  · intro events games players scope opts sortVal nowYear r hr
    rw [buildIndividualLeaderboard] at hr
    have hr' := List.mem_mergeSort.mp hr
    simp only [leaderboardRows] at hr'
    obtain ⟨entry, hentry, hrow⟩ := List.mem_map.mp hr'
    have hb : TotalsBounded entry.2 :=
      totalsBounded_fold _ _ (by simp) entry hentry
    obtain ⟨h1, h2⟩ := hb
    subst hrow
    by_cases h0 : entry.2.atBats = 0
    · simp [mkRow, h0]
    · have hpos : (0 : ℚ) < (entry.2.atBats : ℚ) := by
        exact_mod_cast Nat.pos_of_ne_zero h0
      refine ⟨?_, ?_, ?_, ?_⟩
      · simp only [mkRow]
        rw [if_pos h0]
        positivity
      · simp only [mkRow]
        rw [if_pos h0]
        rw [div_le_one hpos]
        exact_mod_cast h1
      · simp only [mkRow]
        rw [if_pos h0]
        positivity
      · simp only [mkRow]
        rw [if_pos h0]
        rw [div_le_iff₀ hpos]
        exact_mod_cast h2

/-- C9 witness: the rate equations at a concrete zero entry, and the
bounds at the runner's row of a concrete steal aggregation. -/
theorem leaderboard_rates_witness :
    ((mkRow [] [] ("pat", zeroTotals)).stats.battingAverage =
      (if zeroTotals.atBats = 0 then 0
       else (zeroTotals.hits : ℚ) / zeroTotals.atBats)) ∧
    (0 ≤ benRow.stats.battingAverage ∧ benRow.stats.battingAverage ≤ 1 ∧
      0 ≤ benRow.stats.slugging ∧ benRow.stats.slugging ≤ 4) :=
  ⟨(leaderboard_rates.1 [] [] ("pat", zeroTotals)).2.2.1,
   leaderboard_rates.2 [stealHomeEvent] [] [] .overall ⟨none, none⟩
     (fun st => st.slugging) 2026 benRow
     (by
       unfold buildIndividualLeaderboard
       exact List.mem_mergeSort.mpr (by decide))⟩

/-- `ensurePlayerTotals` does not change any looked-up totals (the fresh
entry equals the lookup default). -/
theorem recGetD_ensure (m : List (String × Totals)) (k p : String) :
    recGetD (ensurePlayerTotals m k) p zeroTotals =
      recGetD m p zeroTotals := by
  unfold ensurePlayerTotals
  cases hg : recGet? m k with
  | some v => rfl
  | none =>
      by_cases hp : p = k
      · subst hp
        simp [recGetD, recGet?_recUpdate_self, hg]
      · simp [recGetD, recGet?_recUpdate_ne _ _ _ _ hp]

/-- Looking up the bumped player returns the mutated totals. -/
theorem recGetD_bump_self (m : List (String × Totals)) (k : String)
    (f : Totals → Totals) :
    recGetD (bumpTotals m k f) k zeroTotals =
      f (recGetD m k zeroTotals) := by
  unfold bumpTotals
  simp [recGetD, recGet?_recUpdate_self]
  have := recGetD_ensure m k k
  simp [recGetD] at this
  rw [this]

/-- Looking up any other player is unaffected by a bump. -/
theorem recGetD_bump_ne (m : List (String × Totals)) (k : String)
    (f : Totals → Totals) (p : String) (h : p ≠ k) :
    recGetD (bumpTotals m k f) p zeroTotals = recGetD m p zeroTotals := by
  unfold bumpTotals
  have := recGetD_ensure m k p
  simp [recGetD] at this ⊢
  rw [recGet?_recUpdate_ne _ _ _ _ h]
  exact this

/-- A bump whose mutation leaves `rbi` alone leaves every player's `rbi`
tally alone. -/
theorem recGetD_bump_rbi_pres {m : List (String × Totals)} {k : String}
    {f : Totals → Totals} (hf : ∀ t, (f t).rbi = t.rbi) (p : String) :
    (recGetD (bumpTotals m k f) p zeroTotals).rbi =
      (recGetD m p zeroTotals).rbi := by
  by_cases hp : p = k
  · subst hp
    rw [recGetD_bump_self]
    exact hf _
  · rw [recGetD_bump_ne _ _ _ _ hp]

/-- C10: the steal event is stamped with the current batter of the offense
lineup (who took no part in the play) and, on a successful steal, its
`rbi` equals its `runsScored` — a steal home (runner on third) records
runsScored 1 and rbi 1 — and the aggregator then adds that `rbi` to the
*runner's* RBI total, leaving every other player's RBI (in particular the
batter's, who differs from the runner) unchanged. -/
theorem steal_rbi_attribution :
    (∀ (s : GameStore) (l : LiveGameState) (r d : String),
      s.live = some l →
      ∃ e, (logSteal r d true s).events = s.events ++ [e] ∧
        e.batterId = (getCurrentBatter (recGetD l.lineups l.offenseTeamId
          emptyLineupState)).playerId ∧
        e.rbi = e.runsScored ∧
        (l.bases.third.isSome = true → e.runsScored = 1 ∧ e.rbi = 1)) ∧
    (∀ (acc : AggAcc) (e : GameEvent) (rr : String),
      e.eventType = .steal_success → e.runnerId = some rr →
      rbiOf (aggStep acc e) rr = rbiOf acc rr + e.rbi ∧
      ∀ p, p ≠ rr → rbiOf (aggStep acc e) p = rbiOf acc p) := by
  constructor
  · intro s l r d h
    refine ⟨(logStealLive r d true l).2,
      by simp [logSteal, h, appendEvent], ?_, ?_, ?_⟩
    · simp [logStealLive, stealEvent]
    · simp [logStealLive, stealEvent]
    · intro h3
      obtain ⟨x, hx⟩ := Option.isSome_iff_exists.mp h3
      simp [logStealLive, stealEvent, resolveSteal, advancePriority,
        List.find?, getBase, hx, moveRunner, baseIndex]
  · intro acc e rr he hr
    constructor
    · cases hdd : e.defenderId with
      | none =>
          simp [rbiOf, aggStep, he, hr, hdd, recGetD_bump_self,
            recGetD_ensure]
      | some dd =>
          simp only [rbiOf, aggStep, he, hr, hdd]
          simp only [reduceCtorEq, if_false, reduceIte]
          rw [recGetD_bump_rbi_pres
            (f := fun t => { t with basesDefended := t.basesDefended + 1 })
            (fun t => rfl) rr]
          rw [recGetD_bump_self, recGetD_ensure]
    · intro p hp
      cases hdd : e.defenderId with
      | none =>
          simp only [rbiOf, aggStep, he, hr, hdd]
          simp only [reduceCtorEq, if_false, reduceIte]
          rw [recGetD_bump_ne _ _ _ _ hp, recGetD_ensure]
      | some dd =>
          simp only [rbiOf, aggStep, he, hr, hdd]
          simp only [reduceCtorEq, if_false, reduceIte]
          rw [recGetD_bump_rbi_pres
            (f := fun t => { t with basesDefended := t.basesDefended + 1 })
            (fun t => rfl) p]
          rw [recGetD_bump_ne _ _ _ _ hp, recGetD_ensure]

/-- C10 witness: the steal event from the store with a runner on third is
stamped with batter "ann", records runsScored 1 and rbi 1, and the
aggregation of the corresponding event credits the rbi to runner "ben"
while leaving batter "ann" unchanged. -/
theorem steal_rbi_attribution_witness :
    (∃ e, (logSteal "ben" "cal" true stealHomeStore).events =
        stealHomeStore.events ++ [e] ∧
      e.batterId = (getCurrentBatter (recGetD stealHomeLive.lineups
        stealHomeLive.offenseTeamId emptyLineupState)).playerId ∧
      e.rbi = e.runsScored ∧
      (stealHomeLive.bases.third.isSome = true →
        e.runsScored = 1 ∧ e.rbi = 1)) ∧
    (rbiOf (aggStep ⟨[], []⟩ stealHomeEvent) "ben" =
      rbiOf ⟨[], []⟩ "ben" + stealHomeEvent.rbi ∧
      ∀ p, p ≠ "ben" →
        rbiOf (aggStep ⟨[], []⟩ stealHomeEvent) p = rbiOf ⟨[], []⟩ p) :=
  ⟨steal_rbi_attribution.1 stealHomeStore stealHomeLive "ben" "cal" rfl,
   steal_rbi_attribution.2 ⟨[], []⟩ stealHomeEvent "ben" rfl rfl⟩

end BblApp
